import Mathlib

/-!
Shallow embedding of the geodesic core of the `pyproj` repository
(`src/geodesic/*.c`, `src/src/geod_*.c`) over the real numbers, together
with theorems settling the specification claims about it.

C `double` arithmetic is modelled by `ℝ`; the C library functions
`sin`, `cos`, `tan`, `atan`, `asin`, `acos`, `sqrt`, `floor` are modelled
by their Mathlib counterparts, and `atan2`, `hypot`, `copysign` are defined
below following their C99 semantics (signed zeros do not exist in `ℝ`, so
`atan2 0 0 = 0` models the `+0` case).  Struct pointers that a function
never checks for NULL are modelled by the pointed-to value; pointers that
are NULL-checked are modelled by `Option`.
-/

namespace Geodesy

open Real

/-- The C99 two-argument arctangent. -/
noncomputable def atan2 (y x : ℝ) : ℝ :=
  if 0 < x then arctan (y / x)
  else if x < 0 then
    (if 0 ≤ y then arctan (y / x) + π else arctan (y / x) - π)
  else
    (if 0 < y then π / 2 else if y < 0 then -(π / 2) else 0)

/-- The C99 `hypot`. -/
noncomputable def hypot (x y : ℝ) : ℝ := Real.sqrt (x * x + y * y)

/-- The C99 `copysign` (the sign of an `ℝ` zero is taken positive). -/
noncomputable def copysign (x y : ℝ) : ℝ := if y < 0 then -|x| else |x|

/-- The machine epsilon constant as `#define`d in `proj_adjlon.c` (1e-14). -/
noncomputable def DBL_EPSILON : ℝ := 1 / 10 ^ 14

/-- Longitude/angle reduction from `src/geodesic/proj_adjlon.c`:
a single scaled-floor computation reducing the argument modulo `2π`. -/
noncomputable def proj_adjlon (lon : ℝ) : ℝ :=
  if |lon * (1 / π)| - 1 > 3 * DBL_EPSILON then
    let x := 0.5 * (lon * (1 / π) + 1)
    (x - ⌊x⌋ - 0.5) * 2 * π
  else lon

/-- Earth ellipsoid constants (`PROJ_ELLIPS` in `project.h`). -/
structure Ellips where
  a : ℝ
  f : ℝ
  es : ℝ
  one_es : ℝ

/-- A geographic coordinate (`PROJ_PT_LPH`; the unused height is omitted). -/
structure PT where
  lam : ℝ
  phi : ℝ

/-- The geodesic line record (`PROJ_LINE` in `project.h`) with the point and
ellipsoid pointers replaced by their values; the `Option`-typed variant used
by the NULL-checking entry point is `GLine` below. -/
structure Line where
  pt1 : PT
  az12 : ℝ
  pt2 : PT
  az21 : ℝ
  S : ℝ

/-- `PROJ_LINE` as seen by `proj_gforward`, which NULL-checks the `pt1`
and `E` pointers (the `pt2` pointer is dereferenced unchecked, hence
modelled by a value). -/
structure GLine where
  pt1 : Option PT
  az12 : ℝ
  pt2 : PT
  az21 : ℝ
  S : ℝ
  E : Option Ellips

/-- Forward geodesic on a sphere, from `src/geodesic/proj_sp_fwd.c`. -/
noncomputable def proj_sp_fwd (E : Ellips) (A : Line) : Line :=
  let S := A.S / E.a
  let cc := cos S
  let sc := sin S
  let cp := cos A.pt1.phi
  let sp := sin A.pt1.phi
  let ca := cos A.az12
  let phi2 := arcsin (sp * cc + cp * sc * ca)
  let lam2 := A.pt1.lam + atan2 (sc * sin A.az12) (cp * cc - sp * sc * ca)
  let dl := A.pt1.lam - lam2
  let az21 := atan2 (cp * sin dl) (cos phi2 * sp - sin phi2 * cp * cos dl)
  let lam2f := if |lam2| > π then lam2 - copysign (2 * π) lam2 else lam2
  { A with pt2 := { lam := lam2f, phi := phi2 }, az21 := az21 }

/-- One execution of the body of the `do`-`while` loop of
`src/geodesic/proj_in_fwd.c` (lines 70-80) followed by the loop test; the
loop carries only `y`, and the values `sy, cy, cz, e` read after the loop
are those computed by the last body execution.  The C loop has no
iteration cap, so the embedding takes a fuel argument and returns `none`
when the tolerance test did not succeed within `fuel` body executions. -/
noncomputable def inFwdLoop (az21 d tu : ℝ) : ℕ → ℝ → Option (ℝ × ℝ × ℝ × ℝ × ℝ)
  | 0, _ => none
  | n + 1, y =>
    let sy := sin y
    let cy := cos y
    let cz := cos (az21 + y)
    let e := cz * cz * 2 - 1
    let y2 := (((sy * sy * 4 - 3) * (e + e - 1) * cz * d / 6 + e * cy)
        * d / 4 - cz) * sy * d + tu
    if |y2 - y| > 5 * (1 / 10 ^ 14) then inFwdLoop az21 d tu n y2
    else some (sy, cy, cz, e, y2)

/-- The pre-loop locals of `proj_in_fwd` (lines 52-69 of
`src/geodesic/proj_in_fwd.c`): `baz0` is the azimuth value stored in
`A->az21` before the loop, and `tud` is the rescaled distance that the C
code stores back into `tu`. -/
structure InFwdPre where
  flat : ℝ
  r : ℝ
  sf : ℝ
  cf : ℝ
  baz0 : ℝ
  cu : ℝ
  su : ℝ
  sa : ℝ
  c2a : ℝ
  d : ℝ
  tud : ℝ

/-- Computes the pre-loop locals of `proj_in_fwd`. -/
noncomputable def inFwdPre (E : Ellips) (A : Line) : InFwdPre :=
  let flat := E.f
  let r := 1 - flat
  let tu := r * sin A.pt1.phi / cos A.pt1.phi
  let sf := sin A.az12
  let cf := cos A.az12
  let baz0 := if cf ≠ 0 then atan2 tu cf * 2 else 0
  let cu := 1 / Real.sqrt (tu * tu + 1)
  let su := tu * cu
  let sa := cu * sf
  let c2a := -sa * sa + 1
  let x0 := Real.sqrt ((1 / r / r - 1) * c2a + 1) + 1
  let x := (x0 - 2) / x0
  let c0 := 1 - x
  let c := (x * x / 4 + 1) / c0
  let d := (x * 0.375 * x - 1) * x
  { flat := flat
    r := r
    sf := sf
    cf := cf
    baz0 := baz0
    cu := cu
    su := su
    sa := sa
    c2a := c2a
    d := d
    tud := A.S / E.a / r / c }

/-- Forward geodesic on an ellipsoid after Vincenty / Rainsford, from
`src/geodesic/proj_in_fwd.c`.  `none` means the uncapped tolerance loop did
not exit within `fuel` body executions. -/
noncomputable def proj_in_fwd (E : Ellips) (A : Line) (fuel : ℕ) : Option Line :=
  match inFwdLoop (inFwdPre E A).baz0 (inFwdPre E A).d (inFwdPre E A).tud fuel
      (inFwdPre E A).tud with
  | none => none
  | some (sy, cy, cz, e, y) =>
    let p := inFwdPre E A
    let baz1 := p.cu * cy * p.cf - p.su * sy
    let phi2 := atan2 (p.su * cy + p.cu * sy * p.cf) (p.r * hypot p.sa baz1)
    let xx := atan2 (sy * p.sf) (p.cu * cy - p.su * sy * p.cf)
    let cc := ((p.c2a * (-3) + 4) * p.flat + 4) * p.c2a * p.flat / 16
    let dd := ((e * cy * cc + cz) * sy * cc + y) * p.sa
    some { A with
      pt2 := { lam := A.pt1.lam + xx - (1 - cc) * dd * p.flat, phi := phi2 }
      az12 := proj_adjlon A.az12
      az21 := proj_adjlon (atan2 p.sa baz1 + π) }

/-- The meridian branch of `proj_pt_fwd` (`merid` true in
`src/geodesic/proj_pt_fwd.c`, so `sina12 = 0`, `M = 0`, `c1 = 0`,
`c2 = f4`, `s1 = π/2 - th1`): the C code computes `phi2` and `al21` into
locals it never stores, so the returned record is the input unchanged, paired
with the longitude increment `de`. -/
noncomputable def ptFwdMerid (E : Ellips) (Arc : Line) : Line × ℝ :=
  let f := E.f
  let f2 := 0.5 * f
  let f4 := 0.5 * f2
  let al12 := proj_adjlon Arc.az12
  let signS := |al12| > π / 2
  let th1 := arctan ((1 - f) * tan Arc.pt1.phi)
  let costh1 := cos th1
  let sinth1 := sin th1
  let cosa12 : ℝ := if |al12| < π / 2 then 1 else -1
  let N := costh1 * cosa12
  let c2 := f4
  let D := (1 - c2) * (1 - c2)
  let P := c2 / D
  let s1 := π / 2 - th1
  let d0 := Arc.S / (D * E.a)
  let d := if signS then -d0 else d0
  let u := 2 * (s1 - d)
  let V := cos (u + d)
  let sind := sin d
  let X := c2 * c2 * sind * cos d * (2 * V * V - 1)
  let ds := d + X - 2 * P * V * (1 - 2 * P * cos u) * sind
  let cosds := cos ds
  let sinds := if signS then -(sin ds) else sin ds
  let al21a := N * cosds - sinth1 * sinds
  (Arc, if al21a > 0 then (if signS then π else 0) else (if signS then 0 else π))

/-- The general (non-meridian) branch of `proj_pt_fwd`: stores the back
azimuth and the endpoint latitude and returns the longitude increment. -/
noncomputable def ptFwdGen (E : Ellips) (Arc : Line) : Line × ℝ :=
  let f := E.f
  let f2 := 0.5 * f
  let f4 := 0.5 * f2
  let onef := 1 - f
  let al12 := proj_adjlon Arc.az12
  let signS := |al12| > π / 2
  let th1 := arctan (onef * tan Arc.pt1.phi)
  let costh1 := cos th1
  let sinth1 := sin th1
  let sina12 := sin al12
  let cosa12 := cos al12
  let M := costh1 * sina12
  let N := costh1 * cosa12
  let c1 := f * M
  let c2 := f4 * (1 - M * M)
  let D := (1 - c2) * (1 - c2 - c1 * M)
  let P := (1 + 0.5 * c1 * M) * c2 / D
  let s1a := if |M| ≥ 1 then 0 else arccos M
  let s1b := sinth1 / sin s1a
  let s1 := if |s1b| ≥ 1 then 0 else arccos s1b
  let d0 := Arc.S / (D * E.a)
  let d := if signS then -d0 else d0
  let u := 2 * (s1 - d)
  let V := cos (u + d)
  let sind := sin d
  let X := c2 * c2 * sind * cos d * (2 * V * V - 1)
  let ds := d + X - 2 * P * V * (1 - 2 * P * cos u) * sind
  let ss := s1 + s1 - ds
  let cosds := cos ds
  let sinds := if signS then -(sin ds) else sin ds
  let al21a := N * cosds - sinth1 * sinds
  let al21b := arctan (M / al21a)
  let al21c := if al21b > 0 then al21b + π else al21b
  let al21d := if al12 < 0 then al21c - π else al21c
  let phi2 := arctan (-(sinth1 * cosds + N * sinds) * sin al21d / (onef * M))
  let de0 := atan2 (sinds * sina12) (costh1 * cosds - sinth1 * sinds * cosa12)
  let de := if signS then de0 + c1 * ((1 - c2) * ds + c2 * sinds * cos ss)
            else de0 - c1 * ((1 - c2) * ds - c2 * sinds * cos ss)
  ({ Arc with az21 := proj_adjlon al21d, pt2 := { Arc.pt2 with phi := phi2 } }, de)

/-- Forward geodesic after Thomas (SP-138), from
`src/geodesic/proj_pt_fwd.c`.  The C function tests
`merid = |sin(adjlon az12)| < 1e-9` once and runs one of two branches whose
shared preamble is replicated (with the `merid` tests resolved) in
`ptFwdMerid` and `ptFwdGen`; it ends with a single unconditional store of
the normalized output longitude. -/
noncomputable def proj_pt_fwd (E : Ellips) (Arc : Line) : Line :=
  let step : Line × ℝ :=
    if |sin (proj_adjlon Arc.az12)| < 1 / 10 ^ 9 then ptFwdMerid E Arc
    else ptFwdGen E Arc
  { step.1 with pt2 := { step.1.pt2 with lam := proj_adjlon (Arc.pt1.lam + step.2) } }

/-- View the non-NULL fields of a `GLine` as a plain `Line`. -/
def toLine (p1 : PT) (A : GLine) : Line :=
  { pt1 := p1, az12 := A.az12, pt2 := A.pt2, az21 := A.az21, S := A.S }

/-- Write a solver's output `Line` back into a `GLine`. -/
def fromLine (A : GLine) (L : Line) : GLine :=
  { A with pt1 := some L.pt1, az12 := L.az12, pt2 := L.pt2, az21 := L.az21, S := L.S }

/-- The combined direct-problem entry point, from
`src/geodesic/proj_gforward.c`: validates `pt1`, `S`, `E`, then runs the
ellipsoidal solver when `f ≠ 0` and the spherical one when `f = 0`. -/
noncomputable def proj_gforward (A : GLine) (fuel : ℕ) : Option (Int × GLine) :=
  match A.pt1, A.E with
  | some p1, some E =>
    if A.S ≤ 0 then some (1, A)
    else if E.f ≠ 0 then
      (proj_in_fwd E (toLine p1 A) fuel).map fun L2 => (0, fromLine A L2)
    else some (0, fromLine A (proj_sp_fwd E (toLine p1 A)))
  | _, _ => some (1, A)

/-- Meridional arc length, from `merid_arc` in `src/geodesic/proj_in_inv.c`. -/
noncomputable def merid_arc (esq phi1 phi2 : ℝ) : ℝ :=
  let flag := |phi1| ≤ 5 / 10 ^ 15 ∧ |abs phi2 - π / 2| < 5 / 10 ^ 15
  let da := phi2 - phi1
  let e2 := esq
  let e4 := e2 * e2
  let e6 := e4 * e2
  let e8 := e6 * e2
  let ex := e8 * e2
  let t1 := e2 * 0.75
  let t2 := e4 * 0.234375
  let t3 := e6 * 0.068359375
  let t4 := e8 * 0.01922607421875
  let t5 := ex * 0.00528717041015625
  let a := t1 + 1 + t2 * 3 + t3 * 10 + t4 * 35 + t5 * 126
  let b := t1 + t2 * 4 + t3 * 15 + t4 * 56 + t5 * 210
  let c := t2 + t3 * 6 + t4 * 28 + t5 * 120
  let d := t3 + t4 * 8 + t5 * 45
  let e := t4 + t5 * 10
  let f := t5
  let db := sin (phi2 * 2) - sin (phi1 * 2)
  let dc := sin (phi2 * 4) - sin (phi1 * 4)
  let dd := sin (phi2 * 6) - sin (phi1 * 6)
  let de := sin (phi2 * 8) - sin (phi1 * 8)
  let df := sin (phi2 * 10) - sin (phi1 * 10)
  let s2 := if flag then 0
    else -db * b / 2 + dc * c / 4 - dd * d / 6 + de * e / 8 - df * f / 10
  (1 - esq) * (da * a + s2)

/-- The fixed-point loop of `func_loa` in `src/geodesic/proj_in_inv.c`
(`do { ... } while (++iter <= 6)` with a tolerance break): at most seven
body executions, so the initial fuel is `6`.  Returns the final
`(asin result, ao)` pair. -/
noncomputable def funcLoaGo (cons t2 t4 t6 : ℝ) : ℕ → ℝ → ℝ × ℝ
  | n, az =>
    let s := cos az
    let c2 := s * s
    let ao := 1 + c2 * (t2 + c2 * (t4 + c2 * t6))
    let cs := cons / ao
    let s2 := arcsin cs
    if |s2 - az| < 5 / 10 ^ 13 then (s2, ao)
    else
      match n with
      | 0 => (s2, ao)
      | m + 1 => funcLoaGo cons t2 t4 t6 m s2

/-- The near-antipodal auxiliary computation `func_loa` of
`src/geodesic/proj_in_inv.c`; returns `(az21, ao, bo, sms)`.  The C
function also takes `az12` but overwrites it before any read. -/
noncomputable def func_loa (flat esq dlam : ℝ) : ℝ × ℝ × ℝ × ℝ :=
  let dlon := |dlam|
  let cons := (π - dlon) / (π * flat)
  let az := arcsin cons
  let t2 := flat * (-0.25) * (flat + 1 + flat * flat)
  let t4 := flat * 0.1875 * flat * (flat * 2.25 + 1)
  let t6 := flat * (-0.1953125) * flat * flat
  let p := funcLoaGo cons t2 t4 t6 6 az
  let az12a := p.1
  let ao := p.2
  let az12b := if dlam < 0 then π * 2 - az12a else az12a
  let az21 := π * 2 - az12b
  let esqp := esq / (1 - esq)
  let s := cos az12b
  let u2 := esqp * s * s
  let u4 := u2 * u2
  let u6 := u4 * u2
  let u8 := u6 * u2
  let bo := 1 + u2 * 0.25 + u4 * (-0.046875) + u6 * 0.01953125
      + u8 * (-0.01068115234375)
  let s2 := sin az12b
  let sms := π * (1 - flat * |s2| * ao - bo * (1 - flat))
  (az21, ao, bo, sms)

/-- The values produced by one body execution of the bounded iteration of
`proj_in_inv` (lines 314-346); the fields other than `ab` are exactly the
locals the C code reads after the loop exits. -/
structure InInvIter where
  clon : ℝ
  slon : ℝ
  csig : ℝ
  ssig : ℝ
  sig : ℝ
  sinalf : ℝ
  w : ℝ
  q2 : ℝ
  q4 : ℝ
  q6 : ℝ
  r2 : ℝ
  r3 : ℝ
  dS : ℝ
  ab : ℝ

/-- The spherical-triangle quantities of one loop body of `proj_in_inv`
(lines 315-321): `(csig, ssig, sig, sinalf, w)`. -/
noncomputable def inInvTri (su1 cu1 su2 cu2 ab : ℝ) : ℝ × ℝ × ℝ × ℝ × ℝ :=
  let clon := cos ab
  let slon := sin ab
  let csig := su1 * su2 + cu1 * cu2 * clon
  let ssig := hypot (slon * cu2) (su2 * cu1 - su1 * cu2 * clon)
  let sig := atan2 ssig csig
  let sinalf := cu1 * cu2 * slon / ssig
  (csig, ssig, sig, sinalf, 1 - sinalf * sinalf)

/-- One body execution of the `do`-`while` loop of `proj_in_inv`
(lines 314-346 of `src/geodesic/proj_in_inv.c`), assembled from the
triangle quantities `inInvTri`. -/
noncomputable def inInvBody (f su1 cu1 su2 cu2 dlon ab : ℝ) : InInvIter :=
  let f2 := f * f
  let f3 := f * f2
  let f4 := f * f3
  let t := inInvTri su1 cu1 su2 cu2 ab
  let csig := t.1
  let ssig := t.2.1
  let sig := t.2.2.1
  let sinalf := t.2.2.2.1
  let w := t.2.2.2.2
  let t4 := w * w
  let t6 := w * t4
  let ao := f - f2 * (f + 1 + f2) * w / 4 + f3 * 3 * (f * 9 / 4 + 1) * t4 / 16
      - f4 * 25 * t6 / 128
  let a2 := f2 * (f + 1 + f2) * w / 4 - f3 * (f * 9 / 4 + 1) * t4 / 4
      + f4 * 75 * t6 / 256
  let a4 := f3 * (f * 9 / 4 + 1) * t4 / 32 - f4 * 15 * t6 / 256
  let a6 := f4 * 5 * t6 / 768
  let qo := if w > 5 / 10 ^ 15 then su1 * (-2) * su2 / w else 0
  let q2 := csig + qo
  let q4 := q2 * 2 * q2 - 1
  let q6 := q2 * (q2 * 4 * q2 - 3)
  let r2 := ssig * 2 * csig
  let r3 := ssig * (3 - ssig * 4 * ssig)
  let dS := sinalf * (ao * sig + a2 * ssig * q2 + a4 * r2 * q4 + a6 * r3 * q6)
  { clon := cos ab
    slon := sin ab
    csig := csig
    ssig := ssig
    sig := sig
    sinalf := sinalf
    w := w
    q2 := q2
    q4 := q4
    q6 := q6
    r2 := r2
    r3 := r3
    dS := dS
    ab := dlon + dS }

/-- The bounded loop of `proj_in_inv`
(`do { ... } while (xy >= 5e-14 && ++kount <= 7)`): at most eight body
executions, so the initial fuel is `7`. -/
noncomputable def inInvGo (f su1 cu1 su2 cu2 dlon : ℝ) : ℕ → ℝ → InInvIter
  | n, ab =>
    let it := inInvBody f su1 cu1 su2 cu2 dlon ab
    if |it.ab - ab| ≥ 5 / 10 ^ 14 then
      match n with
      | 0 => it
      | m + 1 => inInvGo f su1 cu1 su2 cu2 dlon m it.ab
    else it

/-- The longitude-difference reduction of `proj_in_inv` (lines 255-262). -/
noncomputable def lonReduce (dlon : ℝ) : ℝ :=
  if dlon ≥ 0 then
    (if π ≤ dlon ∧ dlon < 2 * π then dlon - 2 * π else dlon)
  else
    (if π ≤ |dlon| ∧ |dlon| < 2 * π then dlon + 2 * π else dlon)

/-- The folding of the reduced longitude difference into `[0, π]`
(lines 263-265 of `proj_in_inv`). -/
noncomputable def lonFold (s : ℝ) : ℝ := if s > π then 2 * π - s else s

/-- The general branch of `proj_in_inv` (lines 294-381): reduced latitudes,
the bounded iteration, the type-B distance series and the azimuths. -/
noncomputable def inInvGeneral (E : Ellips) (A : Line) : Line :=
  let f := E.f
  let esq := E.es
  let f0 := 1 - f
  let b := f0
  let epsq := esq / (1 - esq)
  let dlon := A.pt2.lam - A.pt1.lam
  let u1 := arctan (f0 * sin A.pt1.phi / cos A.pt1.phi)
  let u2 := arctan (f0 * sin A.pt2.phi / cos A.pt2.phi)
  let su1 := sin u1
  let cu1 := cos u1
  let su2 := sin u2
  let cu2 := cos u2
  let it := inInvGo f su1 cu1 su2 cu2 dlon 7 dlon
  let z := epsq * it.w
  let bo := z * (z * (z * (0.01953125 - z * 175 / 16384) - 0.046875) + 0.25) + 1
  let b2 := z * (z * (z * (z * 35 / 2048 - 0.029296875) + 0.0625) - 0.25)
  let b4 := z * z * (z * (0.005859375 - z * 35 / 8192) - 0.0078125)
  let b6 := z * z * z * (z * 5 / 6144 - 6.5104166666666663e-4)
  let S := E.a * b *
      (bo * it.sig + b2 * it.ssig * it.q2 + b4 * it.r2 * it.q4 + b6 * it.r3 * it.q6)
  let dlon2 := if dlon > π then dlon - π * 2 else dlon
  let dlon3 := if |dlon2| > π then dlon2 + π * 2 else dlon2
  let az12e := if dlon3 < 0 then π / 2 * 3 else π / 2
  let az21e0 := az12e + π
  let az21e := if az21e0 > π * 2 then az21e0 - π * 2 else az21e0
  let azp : ℝ × ℝ :=
    if ¬(|su1| < 5 / 10 ^ 15 ∧ |su2| < 5 / 10 ^ 15) then
      let tana1 := it.slon * cu2 / (su2 * cu1 - it.clon * su1 * cu2)
      let tana2 := it.slon * cu1 / (su1 * cu2 - it.clon * su2 * cu1)
      let sina1 := it.sinalf / cu1
      let sina2 := -it.sinalf / cu2
      (atan2 sina1 (sina1 / tana1), π - atan2 sina2 (sina2 / tana2))
    else (az12e, az21e)
  let az12f := if azp.1 < 0 then azp.1 + 2 * π else azp.1
  let az21f := if azp.2 < 0 then azp.2 + 2 * π else azp.2
  { A with az12 := az12f, az21 := az21f, S := S }

/-- The reduced latitude of `pt1` computed by the general branch of
`proj_in_inv` (lines 304-306). -/
noncomputable def inInvU1 (E : Ellips) (A : Line) : ℝ :=
  arctan ((1 - E.f) * sin A.pt1.phi / cos A.pt1.phi)

/-- The reduced latitude of `pt2` computed by the general branch of
`proj_in_inv` (lines 305-307). -/
noncomputable def inInvU2 (E : Ellips) (A : Line) : ℝ :=
  arctan ((1 - E.f) * sin A.pt2.phi / cos A.pt2.phi)

/-- The loop state left behind by the bounded iteration of the general
branch of `proj_in_inv`. -/
noncomputable def inInvIt (E : Ellips) (A : Line) : InInvIter :=
  inInvGo E.f (sin (inInvU1 E A)) (cos (inInvU1 E A)) (sin (inInvU2 E A))
    (cos (inInvU2 E A)) (A.pt2.lam - A.pt1.lam) 7 (A.pt2.lam - A.pt1.lam)

/-- The argument `z = epsq · w` of the type-B series of `proj_in_inv`. -/
noncomputable def inInvZ (E : Ellips) (A : Line) : ℝ :=
  E.es / (1 - E.es) * (inInvIt E A).w

/-- Bounds satisfied by every iterate of the `proj_in_inv` loop when the
second reduced latitude is `0` (second point on the equator) and the first
has sine at least `0.42`. -/
def InvGoProp (it : InInvIter) : Prop :=
  0.42 ≤ it.ssig ∧ it.ssig ≤ 1 ∧ |it.q2| ≤ 1 ∧ |it.q4| ≤ 1 ∧ |it.q6| ≤ 1 ∧
    |it.r2| ≤ 2 ∧ |it.r3| ≤ 3 ∧ 0 ≤ it.w ∧ it.w ≤ 1 ∧ 0.35 ≤ it.sig

/-- Inverse geodesic on an ellipsoid after Vincenty / Rainsford, from
`src/geodesic/proj_in_inv.c`: the meridional branch, the near-antipodal
ladder and the general iterative branch. -/
noncomputable def proj_in_inv (E : Ellips) (A : Line) : Line :=
  let f := E.f
  let esq := E.es
  let dl := A.pt2.lam - A.pt1.lam
  if |dl| < 5 / 10 ^ 14 then
    let arc := merid_arc esq A.pt1.phi A.pt2.phi
    let S := E.a * |arc|
    if A.pt2.phi > A.pt1.phi then { A with az12 := 0, az21 := π, S := S }
    else { A with az12 := π, az21 := 0, S := S }
  else
    let dlon := lonReduce dl
    let ss := lonFold |dlon|
    let alimit := π * (1 - f)
    if ss ≥ alimit then
      let r1 := |A.pt1.phi|
      let r2 := |A.pt2.phi|
      if ¬(r1 > 0.007 ∧ r2 > 0.007) ∧ ¬(r1 < 5 / 10 ^ 14 ∧ r2 > 0.007) ∧
          ¬(r2 < 5 / 10 ^ 14 ∧ r1 > 0.007) then
        if r1 > 5 / 10 ^ 14 ∨ r2 > 5 / 10 ^ 14 then
          { A with az12 := 0, az21 := 0, S := 0 }
        else
          let q := func_loa f esq dlon
          let equ := |dlon|
          { A with az21 := q.1, S := equ - q.2.2.2 }
      else inInvGeneral E A
    else inInvGeneral E A

/-- The non-degenerate tail of `proj_pt_inv` (lines 62-91 of
`src/geodesic/proj_pt_inv.c`), taking the already-computed mean/difference
reduced colatitudes and longitude difference.  Locals whose C names collide
with the parameters (`L`, `E`, `A`, `B`, `D`, `T`, `X`, `Y`) are doubled. -/
noncomputable def ptInvGen (E : Ellips) (Arc : Line) (thm dthm dlam dlamm : ℝ) :
    Line :=
  let f2 := 0.5 * E.f
  let f4 := 0.5 * f2
  let f64 := 0.25 * f4 * f4
  let sindlamm := sin dlamm
  let costhm := cos thm
  let sinthm := sin thm
  let cosdthm := cos dthm
  let sindthm := sin dthm
  let LL := sindthm * sindthm + (cosdthm * cosdthm - sinthm * sinthm)
      * sindlamm * sindlamm
  let cosd := 1 - LL - LL
  let d := arccos cosd
  let EE := cosd + cosd
  let sind := sin d
  let Y0 := sinthm * cosdthm
  let YY := Y0 * (Y0 + Y0) / (1 - LL)
  let T0 := sindthm * costhm
  let TT0 := T0 * (T0 + T0) / LL
  let XX := YY + TT0
  let YY2 := YY - TT0
  let TT := d / sind
  let DD := 4 * TT * TT
  let AA := DD * EE
  let BB := DD + DD
  let S := sind * (TT - f4 * (TT * XX - YY2) +
      f64 * (XX * (AA + (TT - 0.5 * (AA - EE)) * XX) -
          YY2 * (BB + EE * YY2) + DD * XX * YY2))
  let tandlammp := tan (0.5 * (dlam - 0.25 * (YY2 + YY2 - EE * (4 - XX)) *
      (f2 * TT + f64 * (32 * TT - (20 * TT - AA) * XX - (BB + 4) * YY2))
      * tan dlam))
  let u := atan2 sindthm (tandlammp * costhm)
  let v := atan2 cosdthm (tandlammp * sinthm)
  { Arc with az12 := proj_adjlon (2 * π + v - u)
             az21 := proj_adjlon (2 * π - v - u)
             S := S }

/-- Inverse geodesic after Thomas (SP-138), from
`src/geodesic/proj_pt_inv.c`: reduced colatitudes, the coincident-point
early return, and the general tail `ptInvGen`. -/
noncomputable def proj_pt_inv (E : Ellips) (Arc : Line) : Line :=
  let onef := 1 - E.f
  let th1 := arctan (onef * tan Arc.pt1.phi)
  let th2 := arctan (onef * tan Arc.pt2.phi)
  let thm := 0.5 * (th1 + th2)
  let dthm := 0.5 * (th2 - th1)
  let dlam := proj_adjlon (Arc.pt2.lam - Arc.pt1.lam)
  let dlamm := 0.5 * dlam
  if |dlam| < 1 / 10 ^ 12 ∧ |dthm| < 1 / 10 ^ 12 then
    { Arc with az12 := 0, az21 := 0, S := 0 }
  else ptInvGen E Arc thm dthm dlam dlamm

/-- A `projUV` coordinate pair (`u` is latitude, `v` is longitude in the
`geod_*` code). -/
structure UV where
  u : ℝ
  v : ℝ

/-- The `GEODESIC_T` record of `src/src/geodesic.h`, with its working
fields (the batch-mode fields `FR_METER`, `TO_METER`, `del_alpha`,
`n_alpha`, `n_S` play no role in the solvers and are omitted). -/
structure GeodT where
  A : ℝ
  p1 : UV
  p2 : UV
  ALPHA12 : ℝ
  ALPHA21 : ℝ
  DIST : ℝ
  ONEF : ℝ
  FLAT : ℝ
  FLAT2 : ℝ
  FLAT4 : ℝ
  FLAT64 : ℝ
  ELLIPSE : Bool
  th1 : ℝ
  costh1 : ℝ
  sinth1 : ℝ
  sina12 : ℝ
  cosa12 : ℝ
  M : ℝ
  N : ℝ
  c1 : ℝ
  c2 : ℝ
  D : ℝ
  P : ℝ
  s1 : ℝ
  merid : Bool
  signS : Bool

/-- Modelled from the spec: `geod_inv.c` and `geod_for.c` call the PROJ
library function `adjlon`, whose source is not part of this repository
slice; spec section 4.1 specifies a single Angle Normalizer used by every
component, so `adjlon` is modelled by the same scaled-floor normalizer as
`proj_adjlon`. -/
noncomputable def adjlon (lon : ℝ) : ℝ := proj_adjlon lon

/-- The ellipsoidal distance/longitude-term pair of `geod_inv`
(lines 31-49 of `src/src/geod_inv.c`). -/
noncomputable def geodInvEll (G : GeodT) (dlam costhm sinthm cosdthm sindthm LL cosd d : ℝ) :
    ℝ × ℝ :=
  let EE := cosd + cosd
  let sind := sin d
  let Y0 := sinthm * cosdthm
  let YY := Y0 * (Y0 + Y0) / (1 - LL)
  let T0 := sindthm * costhm
  let TT0 := T0 * (T0 + T0) / LL
  let XX := YY + TT0
  let YY2 := YY - TT0
  let TT := d / sind
  let DD := 4 * TT * TT
  let AA := DD * EE
  let BB := DD + DD
  (G.A * sind * (TT - G.FLAT4 * (TT * XX - YY2) +
      G.FLAT64 * (XX * (AA + (TT - 0.5 * (AA - EE)) * XX) -
          YY2 * (BB + EE * YY2) + DD * XX * YY2)),
   tan (0.5 * (dlam - 0.25 * (YY2 + YY2 - EE * (4 - XX)) *
      (G.FLAT2 * TT + G.FLAT64 *
          (32 * TT - (20 * TT - AA) * XX - (BB + 4) * YY2)) * tan dlam)))

/-- The non-degenerate tail of `geod_inv`. -/
noncomputable def geodInvGen (G : GeodT) (thm dthm dlam dlamm : ℝ) : GeodT × Int :=
  let sindlamm := sin dlamm
  let costhm := cos thm
  let sinthm := sin thm
  let cosdthm := cos dthm
  let sindthm := sin dthm
  let LL := sindthm * sindthm + (cosdthm * cosdthm - sinthm * sinthm)
      * sindlamm * sindlamm
  let cosd := 1 - LL - LL
  let d := arccos cosd
  let p : ℝ × ℝ :=
    if G.ELLIPSE then geodInvEll G dlam costhm sinthm cosdthm sindthm LL cosd d
    else (G.A * d, tan dlamm)
  let u := atan2 sindthm (p.2 * costhm)
  let v := atan2 cosdthm (p.2 * sinthm)
  ({ G with DIST := p.1
            ALPHA12 := adjlon (2 * π + v - u)
            ALPHA21 := adjlon (2 * π - v - u) }, 0)

/-- Inverse geodesic from `src/src/geod_inv.c` (Thomas formulation with a
spherical branch); returns the updated record and the C return value. -/
noncomputable def geod_inv (G : GeodT) : GeodT × Int :=
  let th1 := if G.ELLIPSE then arctan (G.ONEF * tan G.p1.u) else G.p1.u
  let th2 := if G.ELLIPSE then arctan (G.ONEF * tan G.p2.u) else G.p2.u
  let thm := 0.5 * (th1 + th2)
  let dthm := 0.5 * (th2 - th1)
  let dlam := adjlon (G.p2.v - G.p1.v)
  let dlamm := 0.5 * dlam
  if |dlam| < 1 / 10 ^ 12 ∧ |dthm| < 1 / 10 ^ 12 then
    ({ G with ALPHA12 := 0, ALPHA21 := 0, DIST := 0 }, -1)
  else geodInvGen G thm dthm dlam dlamm

/-- The shared preprocessing `geod_pre` of `src/src/geod_for.c`. -/
noncomputable def geod_pre (G : GeodT) : GeodT :=
  let al12 := adjlon G.ALPHA12
  let signS := |al12| > π / 2
  let th1 := if G.ELLIPSE then arctan (G.ONEF * tan G.p1.u) else G.p1.u
  let costh1 := cos th1
  let sinth1 := sin th1
  let merid := |sin al12| < 1 / 10 ^ 9
  let sina12 := if merid then 0 else sin al12
  let cosa12 := if merid then (if |al12| < π / 2 then 1 else -1) else cos al12
  let M := if merid then 0 else costh1 * sina12
  let N := costh1 * cosa12
  let c1 := if G.ELLIPSE then (if merid then 0 else G.FLAT * M) else G.c1
  let c2 := if G.ELLIPSE then (if merid then G.FLAT4 else G.FLAT4 * (1 - M * M))
      else G.c2
  let D := if G.ELLIPSE then
      (if merid then (1 - c2) * (1 - c2) else (1 - c2) * (1 - c2 - c1 * M))
    else G.D
  let P := if G.ELLIPSE then
      (if merid then c2 / D else (1 + 0.5 * c1 * M) * c2 / D)
    else G.P
  let s1a := if |M| ≥ 1 then 0 else arccos M
  let s1b := sinth1 / sin s1a
  let s1 := if merid then π / 2 - th1
    else (if |s1b| ≥ 1 then 0 else arccos s1b)
  { G with ALPHA12 := al12
           signS := signS
           th1 := th1
           costh1 := costh1
           sinth1 := sinth1
           merid := merid
           sina12 := sina12
           cosa12 := cosa12
           M := M
           N := N
           c1 := c1
           c2 := c2
           D := D
           P := P
           s1 := s1 }

/-- Forward geodesic `geod_for` of `src/src/geod_for.c`; unlike
`proj_pt_fwd`, its meridian branch stores both the endpoint latitude
`p2.u` and the degenerate back azimuth `ALPHA21`. -/
noncomputable def geod_for (G : GeodT) : GeodT :=
  let ds0 : ℝ × ℝ :=
    if G.ELLIPSE then
      let d0 := G.DIST / (G.D * G.A)
      let d := if G.signS then -d0 else d0
      let u := 2 * (G.s1 - d)
      let V := cos (u + d)
      let sind := sin d
      let X := G.c2 * G.c2 * sind * cos d * (2 * V * V - 1)
      let ds := d + X - 2 * G.P * V * (1 - 2 * G.P * cos u) * sind
      (ds, G.s1 + G.s1 - ds)
    else
      let ds0 := G.DIST / G.A
      ((if G.signS then -ds0 else ds0), 0)
  let ds := ds0.1
  let ss := ds0.2
  let cosds := cos ds
  let sinds := if G.signS then -(sin ds) else sin ds
  let al21a := G.N * cosds - G.sinth1 * sinds
  if G.merid then
    let p2u := arctan (tan (π / 2 + G.s1 - ds) / G.ONEF)
    let q : ℝ × ℝ × ℝ :=
      if al21a > 0 then
        (π, if G.signS then π else 0, if G.signS then p2u else -p2u)
      else
        ((0 : ℝ), if G.signS then 0 else π, if G.signS then -p2u else p2u)
    { G with ALPHA21 := q.1
             p2 := { u := q.2.2, v := adjlon (G.p1.v + q.2.1) } }
  else
    let al21b := arctan (G.M / al21a)
    let al21c := if al21b > 0 then al21b + π else al21b
    let al21d := if G.ALPHA12 < 0 then al21c - π else al21c
    let al21 := adjlon al21d
    let p2u := arctan (-(G.sinth1 * cosds + G.N * sinds) * sin al21d /
        (if G.ELLIPSE then G.ONEF * G.M else G.M))
    let de0 := atan2 (sinds * G.sina12)
        (G.costh1 * cosds - G.sinth1 * sinds * G.cosa12)
    let de := if G.ELLIPSE then
        (if G.signS then de0 + G.c1 * ((1 - G.c2) * ds + G.c2 * sinds * cos ss)
         else de0 - G.c1 * ((1 - G.c2) * ds - G.c2 * sinds * cos ss))
      else de0
    { G with ALPHA21 := al21, p2 := { u := p2u, v := adjlon (G.p1.v + de) } }

/-! Concrete records used to evaluate the solvers at specific inputs. -/

/-- A unit sphere (`f = 0`). -/
def sphereE : Ellips := { a := 1, f := 0, es := 0, one_es := 1 }

/-- An exaggerated ellipsoid with `f = 1/10`, `es = f(2-f) = 19/100`. -/
noncomputable def ellE : Ellips := { a := 1, f := 0.1, es := 0.19, one_es := 0.81 }

/-- An extreme ellipsoid with `f = 1/2`, `es = 3/4`. -/
noncomputable def halfE : Ellips := { a := 1, f := 1 / 2, es := 3 / 4, one_es := 1 / 4 }

/-- A valid direct-problem input for the dispatcher (sphere, `S = 1`). -/
def gline0 : GLine :=
  { pt1 := some { lam := 0, phi := 0 }, az12 := 0, pt2 := { lam := 0, phi := 0 },
    az21 := 0, S := 1, E := some sphereE }

/-- A line whose two points coincide (for the zero-distance inverse claim). -/
noncomputable def coincL : Line :=
  { pt1 := { lam := 0.3, phi := 0.5 }, az12 := 0, pt2 := { lam := 0.3, phi := 0.5 },
    az21 := 0, S := 0 }

/-- A spherical direct input with an unnormalized start longitude `100`. -/
noncomputable def farL : Line :=
  { pt1 := { lam := 100, phi := 0 }, az12 := π / 2, pt2 := { lam := 0, phi := 0 },
    az21 := 0, S := 1 }

/-- A meridian (`az12 = 0`) Thomas-forward input with sentinel values `7, 8, 9`
in the output fields. -/
noncomputable def meridL : Line :=
  { pt1 := { lam := 0, phi := 0.5 }, az12 := 0, pt2 := { lam := 7, phi := 8 },
    az21 := 9, S := 1 }

/-- An inverse input beyond the equatorial antipodal limit of `ellE` with
`pt1` far from the equator and `pt2` exactly on it. -/
noncomputable def farOnL : Line :=
  { pt1 := { lam := 0, phi := 0.5 }, az12 := 0, pt2 := { lam := 3, phi := 0 },
    az21 := 0, S := 0 }

/-- As `farOnL` but with `pt1` in the just-off-the-equator band
`(5e-14, 0.007]`. -/
noncomputable def bandL : Line :=
  { pt1 := { lam := 0, phi := 0.001 }, az12 := 0, pt2 := { lam := 3, phi := 0 },
    az21 := 0, S := 0 }

/-- A Vincenty-direct input with an unnormalized azimuth `5π/2` and sentinel
values `7, 8, 9` in the output fields. -/
noncomputable def vinL : Line :=
  { pt1 := { lam := 0, phi := 0 }, az12 := 5 * π / 2, pt2 := { lam := 7, phi := 8 },
    az21 := 9, S := 1 }

/-- The exact output of `proj_in_fwd halfE vinL`. -/
noncomputable def vinOut : Line :=
  { pt1 := { lam := 0, phi := 0 }, az12 := π / 2, pt2 := { lam := 1, phi := 0 },
    az21 := -(π / 2), S := 1 }

/-- A coincident-endpoint `GEODESIC_T` record (working fields zeroed). -/
noncomputable def coincG : GeodT :=
  { A := 1
    p1 := { u := 0.5, v := 0.3 }
    p2 := { u := 0.5, v := 0.3 }
    ALPHA12 := 0.2
    ALPHA21 := 0.3
    DIST := 5
    ONEF := 0.9
    FLAT := 0.1
    FLAT2 := 0.05
    FLAT4 := 0.025
    FLAT64 := 0.00015625
    ELLIPSE := true
    th1 := 0
    costh1 := 0
    sinth1 := 0
    sina12 := 0
    cosa12 := 0
    M := 0
    N := 0
    c1 := 0
    c2 := 0
    D := 0
    P := 0
    s1 := 0
    merid := false
    signS := false }

/-- The reduced latitude divisor pattern `r * sin φ / cos φ` shared by
`proj_in_fwd.c` line 53 and `proj_in_inv.c` lines 304-305. -/
noncomputable def reducedLatTan (r phi : ℝ) : ℝ := r * sin phi / cos phi

/-- The Thomas reduced latitude `atan(onef * tan φ)` of `proj_pt_fwd.c`
line 54 and `proj_pt_inv.c` lines 53-54. -/
noncomputable def thomasRedLat (onef phi : ℝ) : ℝ := arctan (onef * tan phi)

/-! ## Properties of the angle normalizer -/

theorem adjlon_of_small {lon : ℝ} (h : ¬ |lon * (1 / π)| - 1 > 3 * DBL_EPSILON) :
    proj_adjlon lon = lon := by
  rw [proj_adjlon, if_neg h]

theorem adjlon_eval (lon : ℝ) (m : ℤ) (h : |lon * (1 / π)| - 1 > 3 * DBL_EPSILON)
    (hm : ⌊0.5 * (lon * (1 / π) + 1)⌋ = m) :
    proj_adjlon lon = lon - 2 * π * m := by
  rw [proj_adjlon, if_pos h]
  show (0.5 * (lon * (1 / π) + 1) - ⌊0.5 * (lon * (1 / π) + 1)⌋ - 0.5) * 2 * π
      = lon - 2 * π * m
  rw [hm]
  have hpi : (π : ℝ) ≠ 0 := Real.pi_ne_zero
  field_simp
  ring

theorem adjlon_zero : proj_adjlon 0 = 0 := by
  apply adjlon_of_small
  norm_num [DBL_EPSILON]

theorem adjlon_three_pi : proj_adjlon (3 * π) = -π := by
  have harg : (3 * π) * (1 / π) = 3 := by
    field_simp
  have h : |(3 * π) * (1 / π)| - 1 > 3 * DBL_EPSILON := by
    rw [harg]; norm_num [DBL_EPSILON]
  have hm : ⌊0.5 * ((3 * π) * (1 / π) + 1)⌋ = (2 : ℤ) := by
    rw [harg]
    rw [show (0.5 * ((3 : ℝ) + 1) : ℝ) = 2 by norm_num]
    rw [show ((2 : ℝ)) = ((2 : ℤ) : ℝ) by norm_num]
    exact Int.floor_intCast 2
  rw [adjlon_eval (3 * π) 2 h hm]
  ring

theorem adjlon_five_half_pi : proj_adjlon (5 * π / 2) = π / 2 := by
  have harg : (5 * π / 2) * (1 / π) = 5 / 2 := by
    field_simp; ring
  have h : |(5 * π / 2) * (1 / π)| - 1 > 3 * DBL_EPSILON := by
    rw [harg, show |(5 / 2 : ℝ)| = 5 / 2 from abs_of_pos (by norm_num)]
    norm_num [DBL_EPSILON]
  have hm : ⌊0.5 * ((5 * π / 2) * (1 / π) + 1)⌋ = (1 : ℤ) := by
    rw [harg]
    rw [show (0.5 * ((5 / 2 : ℝ) + 1) : ℝ) = 7 / 4 by norm_num]
    rw [Int.floor_eq_iff]
    norm_num
  rw [adjlon_eval (5 * π / 2) 1 h hm]
  ring

theorem adjlon_three_half_pi : proj_adjlon (3 * π / 2) = -(π / 2) := by
  have harg : (3 * π / 2) * (1 / π) = 3 / 2 := by
    field_simp; ring
  have h : |(3 * π / 2) * (1 / π)| - 1 > 3 * DBL_EPSILON := by
    rw [harg, show |(3 / 2 : ℝ)| = 3 / 2 from abs_of_pos (by norm_num)]
    norm_num [DBL_EPSILON]
  have hm : ⌊0.5 * ((3 * π / 2) * (1 / π) + 1)⌋ = (1 : ℤ) := by
    rw [harg]
    rw [show (0.5 * ((3 / 2 : ℝ) + 1) : ℝ) = 5 / 4 by norm_num]
    rw [Int.floor_eq_iff]
    norm_num
  rw [adjlon_eval (3 * π / 2) 1 h hm]
  ring

/-- C1 counterexample: the normalizer is claimed to land in `(-π, π]` for
every real input, but at `x = 3π` it returns exactly `-π`, which is outside
the half-open interval `(-π, π]`. -/
theorem adjlon_three_pi_not_in_Ioc :
    proj_adjlon (3 * π) = -π ∧ proj_adjlon (3 * π) ∉ Set.Ioc (-π) π := by
  refine ⟨adjlon_three_pi, ?_⟩
  rw [adjlon_three_pi]
  simp [Set.mem_Ioc]

/-- C1 amended: for every real `x`, `proj_adjlon x` is congruent to `x`
modulo `2π` and lies in the closed interval
`[-(1 + 3e-14)·π, (1 + 3e-14)·π]` (the normalizing branch lands in
`[-π, π)`, and inputs already within `π·(1 + 3e-14)` of zero in magnitude
are returned unchanged). -/
theorem adjlon_mod (x : ℝ) : ∃ k : ℤ, proj_adjlon x = x - 2 * π * k := by
  by_cases h : |x * (1 / π)| - 1 > 3 * DBL_EPSILON
  · exact ⟨_, adjlon_eval x _ h rfl⟩
  · rw [adjlon_of_small h]
    exact ⟨0, by push_cast; ring⟩

theorem adjlon_range (x : ℝ) :
    -((1 + 3 * DBL_EPSILON) * π) ≤ proj_adjlon x ∧
      proj_adjlon x ≤ (1 + 3 * DBL_EPSILON) * π := by
  have hpi : (0 : ℝ) < π := Real.pi_pos
  by_cases h : |x * (1 / π)| - 1 > 3 * DBL_EPSILON
  · set t := 0.5 * (x * (1 / π) + 1) with ht
    have hfr0 : (0 : ℝ) ≤ t - ⌊t⌋ := by
      have := Int.floor_le t
      linarith
    have hfr1 : t - ⌊t⌋ < 1 := by
      have := Int.lt_floor_add_one t
      linarith
    have hval : proj_adjlon x = (t - ⌊t⌋ - 0.5) * 2 * π := by
      rw [proj_adjlon, if_pos h]
    have hlow : -π ≤ proj_adjlon x := by
      rw [hval]; nlinarith
    have hhigh : proj_adjlon x < π := by
      rw [hval]; nlinarith
    have heps : (0 : ℝ) ≤ 3 * DBL_EPSILON := by norm_num [DBL_EPSILON]
    constructor
    · nlinarith
    · nlinarith
  · push_neg at h
    have hx : |x| ≤ (1 + 3 * DBL_EPSILON) * π := by
      have habs : |x * (1 / π)| = |x| * (1 / π) := by
        rw [abs_mul, abs_of_pos (by positivity : (0 : ℝ) < 1 / π)]
      rw [habs] at h
      have h2 : |x| * (1 / π) ≤ 1 + 3 * DBL_EPSILON := by linarith
      calc |x| = |x| * (1 / π) * π := by field_simp
        _ ≤ (1 + 3 * DBL_EPSILON) * π := by nlinarith [abs_nonneg x]
    rw [adjlon_of_small (not_lt.mpr h)]
    exact ⟨by linarith [(abs_le.mp hx).1], (abs_le.mp hx).2⟩

/-- C1 amended: for every real `x`, `proj_adjlon x` is congruent to `x`
modulo `2π` and lies in the closed interval
`[-(1 + 3e-14)·π, (1 + 3e-14)·π]` (the normalizing branch lands in
`[-π, π)`, and inputs already within `π·(1 + 3e-14)` of zero in magnitude
are returned unchanged). -/
theorem adjlon_congruence_and_range (x : ℝ) :
    (∃ k : ℤ, proj_adjlon x = x - 2 * π * k) ∧
      -((1 + 3 * DBL_EPSILON) * π) ≤ proj_adjlon x ∧
      proj_adjlon x ≤ (1 + 3 * DBL_EPSILON) * π :=
  ⟨adjlon_mod x, (adjlon_range x).1, (adjlon_range x).2⟩

/-! ## The dispatcher contract -/

theorem gforward_err {A : GLine} (fuel : ℕ)
    (h : A.pt1 = none ∨ A.S ≤ 0 ∨ A.E = none) :
    proj_gforward A fuel = some (1, A) := by
  rcases h1 : A.pt1 with _ | p1
  · simp [proj_gforward, h1]
  · rcases h2 : A.E with _ | E
    · simp [proj_gforward, h1, h2]
    · have hS : A.S ≤ 0 := by
        rcases h with h | h | h
        · rw [h1] at h; exact absurd h (by simp)
        · exact h
        · rw [h2] at h; exact absurd h (by simp)
      simp [proj_gforward, h1, h2, hS]

theorem gforward_sphere {A : GLine} (fuel : ℕ) {p1 : PT} {E : Ellips}
    (h1 : A.pt1 = some p1) (h2 : A.E = some E) (hS : ¬ A.S ≤ 0) (hf : E.f = 0) :
    proj_gforward A fuel = some (0, fromLine A (proj_sp_fwd E (toLine p1 A))) := by
  simp [proj_gforward, h1, h2, hS, hf]

theorem gforward_ell {A : GLine} (fuel : ℕ) {p1 : PT} {E : Ellips}
    (h1 : A.pt1 = some p1) (h2 : A.E = some E) (hS : ¬ A.S ≤ 0) (hf : E.f ≠ 0) :
    proj_gforward A fuel
      = (proj_in_fwd E (toLine p1 A) fuel).map fun L2 => (0, fromLine A L2) := by
  simp [proj_gforward, h1, h2, hS, hf]

/-- C2: the combined direct entry point returns the failure code `1` with the
line unmodified exactly when `pt1` is absent, `S ≤ 0` or the ellipsoid is
absent; on every other input it returns the success code `0`, dispatching to
the spherical solver exactly when `f = 0` and to the ellipsoidal solver
(whose uncapped iteration is represented by its fuelled embedding)
otherwise. -/
theorem gforward_contract (A : GLine) (fuel : ℕ) :
    (proj_gforward A fuel = some (1, A)
        ↔ A.pt1 = none ∨ A.S ≤ 0 ∨ A.E = none) ∧
    (∀ (p1 : PT) (E : Ellips), A.pt1 = some p1 → A.E = some E → ¬ A.S ≤ 0 →
      (E.f = 0 → proj_gforward A fuel
          = some (0, fromLine A (proj_sp_fwd E (toLine p1 A)))) ∧
      (E.f ≠ 0 → proj_gforward A fuel
          = (proj_in_fwd E (toLine p1 A) fuel).map fun L2 => (0, fromLine A L2))) := by
  constructor
  · constructor
    · intro hg
      by_contra hc
      push_neg at hc
      obtain ⟨hn1, hnS, hnE⟩ := hc
      rcases h1 : A.pt1 with _ | p1
      · exact hn1 h1
      rcases h2 : A.E with _ | E
      · exact hnE h2
      have hS : ¬ A.S ≤ 0 := not_le.mpr hnS
      by_cases hf : E.f = 0
      · rw [gforward_sphere fuel h1 h2 hS hf] at hg
        simp at hg
      · rw [gforward_ell fuel h1 h2 hS hf] at hg
        rcases hin : proj_in_fwd E (toLine p1 A) fuel with _ | L2 <;>
          rw [hin] at hg <;> simp at hg
    · exact gforward_err fuel
  · intro p1 E h1 h2 hS
    exact ⟨fun hf => gforward_sphere fuel h1 h2 hS hf,
           fun hf => gforward_ell fuel h1 h2 hS hf⟩

/-- C2 witness: the contract applied to a concrete valid spherical input. -/
theorem gforward_contract_witness :
    gline0.pt1 = some { lam := 0, phi := 0 } ∧ gline0.E = some sphereE ∧
      ¬ gline0.S ≤ 0 ∧ sphereE.f = 0 ∧
      proj_gforward gline0 0 = some (0, fromLine gline0
        (proj_sp_fwd sphereE (toLine { lam := 0, phi := 0 } gline0))) := by
  refine ⟨rfl, rfl, by norm_num [gline0], rfl, ?_⟩
  exact ((gforward_contract gline0 0).2 _ sphereE rfl rfl
    (by norm_num [gline0])).1 rfl

/-! ## Reduced-latitude preprocessing safety -/

/-- C10: for `|φ| < π/2` the divisor `cos φ` of the reduced-latitude
preprocessing is nonzero and `(r sin φ / cos φ) · cos φ = r sin φ`, i.e. the
quotient is a genuine tangent; at `φ = π/2` (admitted by the data-model
invariant `φ ∈ [-π/2, π/2]`) the divisor vanishes and the identity fails. -/
theorem reduced_lat_safety :
    (∀ phi : ℝ, |phi| < π / 2 → cos phi ≠ 0 ∧
        ∀ r : ℝ, reducedLatTan r phi * cos phi = r * sin phi) ∧
      cos (π / 2) = 0 ∧
      reducedLatTan 1 (π / 2) * cos (π / 2) ≠ 1 * sin (π / 2) := by
  refine ⟨fun phi hphi => ?_, Real.cos_pi_div_two, ?_⟩
  · have habs := abs_lt.mp hphi
    have hc : 0 < cos phi := Real.cos_pos_of_mem_Ioo ⟨habs.1, habs.2⟩
    exact ⟨ne_of_gt hc, fun r => div_mul_cancel₀ _ (ne_of_gt hc)⟩
  · simp [reducedLatTan, Real.cos_pi_div_two, Real.sin_pi_div_two]

/-- C10 witness: the safety statement applied at `φ = 0`, `r = 1`. -/
theorem reduced_lat_safety_witness :
    |(0 : ℝ)| < π / 2 ∧ cos (0 : ℝ) ≠ 0 ∧
      reducedLatTan 1 0 * cos 0 = 1 * sin 0 := by
  have h0 : |(0 : ℝ)| < π / 2 := by
    rw [abs_zero]
    positivity
  exact ⟨h0, (reduced_lat_safety.1 0 h0).1, (reduced_lat_safety.1 0 h0).2 1⟩

/-! ## The Thomas forward solver -/

theorem pt_fwd_frame (E : Ellips) (Arc : Line) :
    (proj_pt_fwd E Arc).pt1 = Arc.pt1 ∧ (proj_pt_fwd E Arc).az12 = Arc.az12 ∧
      (proj_pt_fwd E Arc).S = Arc.S := by
  simp only [proj_pt_fwd]
  split <;> exact ⟨rfl, rfl, rfl⟩

theorem ptFwdMerid_fst (E : Ellips) (Arc : Line) : (ptFwdMerid E Arc).1 = Arc := rfl

/-- In `proj_pt_fwd`, the output longitude is always an application of the
angle normalizer. -/
theorem pt_fwd_lam_shape (E : Ellips) (Arc : Line) :
    ∃ t, (proj_pt_fwd E Arc).pt2.lam = proj_adjlon t := ⟨_, rfl⟩

/-- C5 amended: only the Thomas forward solver passes its output longitude
through the angle normalizer, hence it always lies in
`[-(1 + 3e-14)·π, (1 + 3e-14)·π]`; the spherical forward solver applies at
most a single `±2π` wrap, and the Vincenty forward solver leaves the output
longitude unnormalized, so for non-pre-normalized input longitudes their
outputs can lie far outside `(-π, π]`. -/
theorem pt_fwd_lam_normalized (E : Ellips) (Arc : Line) :
    -((1 + 3 * DBL_EPSILON) * π) ≤ (proj_pt_fwd E Arc).pt2.lam ∧
      (proj_pt_fwd E Arc).pt2.lam ≤ (1 + 3 * DBL_EPSILON) * π := by
  obtain ⟨t, ht⟩ := pt_fwd_lam_shape E Arc
  rw [ht]
  exact adjlon_range t

/-- C6: in the meridian case (`|sin(adjlon az12)| < 1e-9`) the Thomas
forward solver `proj_pt_fwd` computes the endpoint latitude and the
degenerate back azimuth only into local variables and stores neither: the
`az21` and `pt2.phi` fields of the line keep whatever values they held
before the call, contradicting the documented behaviour and the sibling
implementation `geod_for` (see `geod_for_merid_stores`). -/
theorem pt_fwd_merid_no_store (E : Ellips) (Arc : Line)
    (h : |sin (proj_adjlon Arc.az12)| < 1 / 10 ^ 9) :
    (proj_pt_fwd E Arc).az21 = Arc.az21 ∧
      (proj_pt_fwd E Arc).pt2.phi = Arc.pt2.phi := by
  simp only [proj_pt_fwd, if_pos h]
  exact ⟨rfl, rfl⟩

/-- C6 witness: a concrete due-north (`az12 = 0`) meridian input on which
the meridian branch runs and the sentinel values `9` and `8` stored in
`az21` and `pt2.phi` before the call survive it. -/
theorem pt_fwd_merid_no_store_witness :
    |sin (proj_adjlon meridL.az12)| < 1 / 10 ^ 9 ∧
      (proj_pt_fwd ellE meridL).az21 = meridL.az21 ∧
      (proj_pt_fwd ellE meridL).pt2.phi = meridL.pt2.phi := by
  have h : |sin (proj_adjlon meridL.az12)| < 1 / 10 ^ 9 := by
    have h0 : meridL.az12 = 0 := rfl
    rw [h0, adjlon_zero, Real.sin_zero, abs_zero]
    norm_num
  exact ⟨h, pt_fwd_merid_no_store ellE meridL h⟩

/-- The sibling implementation `geod_for` does store the degenerate back
azimuth (`0` or `π`) in its meridian case. -/
theorem geod_for_merid_stores (G : GeodT) (h : G.merid = true) :
    (geod_for G).ALPHA21 = 0 ∨ (geod_for G).ALPHA21 = π := by
  simp only [geod_for, h]
  split_ifs <;> simp

/-! ## atan2 facts -/

theorem atan2_of_pos_x {y x : ℝ} (hx : 0 < x) : atan2 y x = arctan (y / x) := by
  rw [atan2, if_pos hx]

theorem atan2_of_zero_pos {y : ℝ} (hy : 0 < y) : atan2 y 0 = π / 2 := by
  rw [atan2, if_neg (lt_irrefl 0), if_neg (lt_irrefl 0), if_pos hy]

theorem atan2_sin_cos {θ : ℝ} (h1 : -(π / 2) < θ) (h2 : θ < π / 2) :
    atan2 (sin θ) (cos θ) = θ := by
  have hc : 0 < cos θ := Real.cos_pos_of_mem_Ioo ⟨h1, h2⟩
  rw [atan2_of_pos_x hc, ← Real.tan_eq_sin_div_cos, Real.arctan_tan h1 h2]

theorem atan2_sin_cos_obtuse {θ : ℝ} (h1 : π / 2 < θ) (h2 : θ < π) :
    atan2 (sin θ) (cos θ) = θ := by
  have hpi : (0 : ℝ) < π := Real.pi_pos
  have hc : cos θ < 0 := Real.cos_neg_of_pi_div_two_lt_of_lt h1 (by linarith)
  have hs : 0 < sin θ := Real.sin_pos_of_pos_of_lt_pi (by linarith) h2
  rw [atan2, if_neg (by linarith), if_pos hc, if_pos hs.le]
  have ht : sin θ / cos θ = tan (θ - π) := by
    rw [Real.tan_sub_pi, Real.tan_eq_sin_div_cos]
  rw [ht, Real.arctan_tan (by linarith) (by linarith)]
  ring

/-! ## The spherical forward solver -/

theorem sp_fwd_frame (E : Ellips) (A : Line) :
    (proj_sp_fwd E A).pt1 = A.pt1 ∧ (proj_sp_fwd E A).az12 = A.az12 ∧
      (proj_sp_fwd E A).S = A.S := ⟨rfl, rfl, rfl⟩

/-- The output longitude of `proj_sp_fwd`, written out. -/
theorem sp_fwd_lam_eq (E : Ellips) (A : Line) :
    (proj_sp_fwd E A).pt2.lam =
      (if |A.pt1.lam + atan2 (sin (A.S / E.a) * sin A.az12)
            (cos A.pt1.phi * cos (A.S / E.a)
              - sin A.pt1.phi * sin (A.S / E.a) * cos A.az12)| > π
       then A.pt1.lam + atan2 (sin (A.S / E.a) * sin A.az12)
            (cos A.pt1.phi * cos (A.S / E.a)
              - sin A.pt1.phi * sin (A.S / E.a) * cos A.az12)
          - copysign (2 * π) (A.pt1.lam + atan2 (sin (A.S / E.a) * sin A.az12)
            (cos A.pt1.phi * cos (A.S / E.a)
              - sin A.pt1.phi * sin (A.S / E.a) * cos A.az12))
       else A.pt1.lam + atan2 (sin (A.S / E.a) * sin A.az12)
            (cos A.pt1.phi * cos (A.S / E.a)
              - sin A.pt1.phi * sin (A.S / E.a) * cos A.az12)) := rfl

/-- C5 counterexample: the spherical forward solver called with the
unnormalized input longitude `λ₁ = 100` (azimuth `π/2`, `φ₁ = 0`, unit
sphere, `S = 1`) writes the output longitude `101 - 2π`, which is greater
than `π`, refuting the claim that every solver-written longitude lies in
`(-π, π]`. -/
theorem sp_fwd_lam_unnormalized :
    (proj_sp_fwd sphereE farL).pt2.lam = 101 - 2 * π ∧
      π < (proj_sp_fwd sphereE farL).pt2.lam := by
  have hpi4 : π < 4 := Real.pi_lt_four
  have hpi3 : 3 < π := Real.pi_gt_three
  have hat : atan2 (sin 1) (cos 1) = 1 :=
    atan2_sin_cos (by nlinarith) (by nlinarith)
  have hkey : (proj_sp_fwd sphereE farL).pt2.lam = 101 - 2 * π := by
    rw [sp_fwd_lam_eq]
    simp only [farL, sphereE]
    norm_num [Real.sin_pi_div_two, Real.cos_pi_div_two, Real.sin_zero,
      Real.cos_zero, hat]
    rw [if_pos (by nlinarith : π < (101 : ℝ))]
    rw [copysign, if_neg (by norm_num : ¬ (101 : ℝ) < 0),
      abs_of_nonneg (by positivity : (0 : ℝ) ≤ 2 * π)]
  exact ⟨hkey, by rw [hkey]; linarith⟩

/-! ## The Vincenty forward solver -/

theorem in_fwd_frame (E : Ellips) (L : Line) (fuel : ℕ) (out : Line)
    (h : proj_in_fwd E L fuel = some out) :
    out.pt1 = L.pt1 ∧ out.S = L.S ∧ out.az12 = proj_adjlon L.az12 := by
  rcases hl : inFwdLoop (inFwdPre E L).baz0 (inFwdPre E L).d (inFwdPre E L).tud fuel
      (inFwdPre E L).tud with _ | q
  · unfold proj_in_fwd at h
    rw [hl] at h
    simp at h
  · obtain ⟨sy, cy, cz, e, y⟩ := q
    unfold proj_in_fwd at h
    rw [hl] at h
    simp only [Option.some.injEq] at h
    rw [← h]
    exact ⟨rfl, rfl, rfl⟩

theorem sin_five_half_pi : sin (5 * π / 2) = 1 := by
  rw [show (5 * π / 2 : ℝ) = π / 2 + 2 * π by ring, Real.sin_add_two_pi,
    Real.sin_pi_div_two]

theorem cos_five_half_pi : cos (5 * π / 2) = 0 := by
  rw [show (5 * π / 2 : ℝ) = π / 2 + 2 * π by ring, Real.cos_add_two_pi,
    Real.cos_pi_div_two]

theorem inFwdPre_eval : inFwdPre halfE vinL =
    { flat := 1 / 2, r := 1 / 2, sf := 1, cf := 0, baz0 := 0, cu := 1, su := 0,
      sa := 1, c2a := 0, d := 0, tud := 2 } := by
  simp only [inFwdPre, halfE, vinL]
  norm_num [sin_five_half_pi, cos_five_half_pi, Real.sin_zero, Real.cos_zero,
    Real.sqrt_one, InFwdPre.mk.injEq]

theorem inFwdLoop_eval : inFwdLoop 0 0 2 1 2
    = some (sin 2, cos 2, cos 2, cos 2 * cos 2 * 2 - 1, 2) := by
  show inFwdLoop 0 0 2 (Nat.succ 0) 2 = _
  simp only [inFwdLoop]
  norm_num

theorem atan2_sin_cos_two : atan2 (sin 2) (cos 2) = 2 := by
  have hpi4 : π < 4 := Real.pi_lt_four
  have hpi3 : 3 < π := Real.pi_gt_three
  exact atan2_sin_cos_obtuse (by linarith) (by linarith)

theorem in_fwd_eval : proj_in_fwd halfE vinL 1 = some vinOut := by
  have hloop : inFwdLoop (inFwdPre halfE vinL).baz0 (inFwdPre halfE vinL).d
      (inFwdPre halfE vinL).tud 1 (inFwdPre halfE vinL).tud
      = some (sin 2, cos 2, cos 2, cos 2 * cos 2 * 2 - 1, 2) := by
    rw [inFwdPre_eval]
    exact inFwdLoop_eval
  have hyp : hypot 1 0 = 1 := by
    rw [hypot]
    norm_num
  have hphi : atan2 (0 * cos 2 + 1 * (sin 2 * 0)) (1 / 2 * hypot 1 (1 * cos 2 * 0 - 0 * sin 2)) = 0 := by
    norm_num [hyp, atan2_of_pos_x, Real.arctan_zero]
  unfold proj_in_fwd
  rw [hloop, inFwdPre_eval]
  simp only [vinL, vinOut]
  norm_num [atan2_sin_cos_two, adjlon_five_half_pi, Line.mk.injEq, PT.mk.injEq,
    hyp, atan2_of_pos_x, Real.arctan_zero, atan2_of_zero_pos]
  rw [show (π / 2 + π : ℝ) = 3 * π / 2 by ring, adjlon_three_half_pi]

/-- C8 counterexample: the Vincenty forward solver `proj_in_fwd` run on a
valid input whose azimuth `5π/2` is not pre-normalized overwrites the
"known" field `az12` with its normalized value `π/2 ≠ 5π/2`, so the direct
solvers do not leave every known field untouched. -/
theorem in_fwd_modifies_az12 :
    proj_in_fwd halfE vinL 1 = some vinOut ∧ vinOut.az12 ≠ vinL.az12 := by
  refine ⟨in_fwd_eval, ?_⟩
  show π / 2 ≠ 5 * π / 2
  intro h
  nlinarith [Real.pi_pos]

/-- C8 amended: every direct solver leaves `pt1` and `S` (and the ellipsoid,
which is taken by value) unchanged; the spherical and Thomas forward solvers
also leave `az12` unchanged, but the Vincenty forward solver overwrites
`az12` with its angle-normalized value `proj_adjlon az12` (the identity only
for pre-normalized azimuths). -/
theorem direct_frame :
    (∀ (E : Ellips) (A : Line), (proj_sp_fwd E A).pt1 = A.pt1 ∧
        (proj_sp_fwd E A).az12 = A.az12 ∧ (proj_sp_fwd E A).S = A.S) ∧
    (∀ (E : Ellips) (A : Line), (proj_pt_fwd E A).pt1 = A.pt1 ∧
        (proj_pt_fwd E A).az12 = A.az12 ∧ (proj_pt_fwd E A).S = A.S) ∧
    (∀ (E : Ellips) (A : Line) (fuel : ℕ) (out : Line),
        proj_in_fwd E A fuel = some out →
          out.pt1 = A.pt1 ∧ out.S = A.S ∧ out.az12 = proj_adjlon A.az12) :=
  ⟨sp_fwd_frame, pt_fwd_frame, in_fwd_frame⟩

/-- C8 witness: the frame statement applied to the concrete convergent
Vincenty run `proj_in_fwd halfE vinL 1 = some vinOut`. -/
theorem direct_frame_witness :
    vinOut.pt1 = vinL.pt1 ∧ vinOut.S = vinL.S ∧
      vinOut.az12 = proj_adjlon vinL.az12 :=
  direct_frame.2.2 halfE vinL 1 vinOut in_fwd_eval

/-! ## The inverse solvers at coincident points -/

theorem merid_arc_same (esq phi : ℝ) : merid_arc esq phi phi = 0 := by
  simp only [merid_arc, sub_self]
  split_ifs <;> ring

theorem in_inv_coincident (E : Ellips) (p : PT) (a12 a21 s : ℝ) :
    proj_in_inv E { pt1 := p, az12 := a12, pt2 := p, az21 := a21, S := s }
      = { pt1 := p, az12 := π, pt2 := p, az21 := 0,
          S := E.a * |merid_arc E.es p.phi p.phi| } := by
  simp only [proj_in_inv, sub_self, abs_zero, lt_self_iff_false, if_false]
  norm_num

theorem pt_inv_coincident (E : Ellips) (p : PT) (a12 a21 s : ℝ) :
    proj_pt_inv E { pt1 := p, az12 := a12, pt2 := p, az21 := a21, S := s }
      = { pt1 := p, az12 := 0, pt2 := p, az21 := 0, S := 0 } := by
  simp only [proj_pt_inv, sub_self, adjlon_zero, abs_zero]
  norm_num

theorem geod_inv_coincident (G : GeodT) (hp : G.p1 = G.p2) :
    (geod_inv G).1.ALPHA12 = 0 ∧ (geod_inv G).1.ALPHA21 = 0 ∧
      (geod_inv G).1.DIST = 0 ∧ (geod_inv G).2 = -1 := by
  simp only [geod_inv, hp, sub_self, adjlon, adjlon_zero, abs_zero]
  norm_num

/-- C4 counterexample: on coincident points the Vincenty inverse solver
takes its meridional branch with `φ₂ > φ₁` false and writes the forward
azimuth `az12 = π`, not `0` as claimed (the distance and back azimuth are
`0`). -/
theorem in_inv_coincident_az12_eq_pi :
    (proj_in_inv ellE coincL).az12 = π ∧ (π : ℝ) ≠ 0 :=
  ⟨congrArg Line.az12 (in_inv_coincident ellE { lam := 0.3, phi := 0.5 } 0 0 0),
    Real.pi_ne_zero⟩

/-- C4 amended: with `point1 = point2 = p`, the Thomas inverse `proj_pt_inv`
and `geod_inv` return distance `0` and both azimuths `0` (and `geod_inv`
returns `-1`); the Vincenty inverse `proj_in_inv` returns distance `0` and
back azimuth `0` but forward azimuth `π`, because its meridional branch
orders the equal latitudes with a strict comparison. -/
theorem inverse_coincident_zero (E : Ellips) (p : PT) (a12 a21 s : ℝ)
    (G : GeodT) (hp : G.p1 = G.p2) :
    proj_pt_inv E { pt1 := p, az12 := a12, pt2 := p, az21 := a21, S := s }
        = { pt1 := p, az12 := 0, pt2 := p, az21 := 0, S := 0 } ∧
      (geod_inv G).1.ALPHA12 = 0 ∧ (geod_inv G).1.ALPHA21 = 0 ∧
        (geod_inv G).1.DIST = 0 ∧
      (proj_in_inv E { pt1 := p, az12 := a12, pt2 := p, az21 := a21, S := s }).az12
          = π ∧
      (proj_in_inv E { pt1 := p, az12 := a12, pt2 := p, az21 := a21, S := s }).az21
          = 0 ∧
      (proj_in_inv E { pt1 := p, az12 := a12, pt2 := p, az21 := a21, S := s }).S
          = 0 := by
  have hg := geod_inv_coincident G hp
  have hv := in_inv_coincident E p a12 a21 s
  refine ⟨pt_inv_coincident E p a12 a21 s, hg.1, hg.2.1, hg.2.2.1, ?_, ?_, ?_⟩
  · rw [hv]
  · rw [hv]
  · rw [hv]
    show E.a * |merid_arc E.es p.phi p.phi| = 0
    rw [merid_arc_same, abs_zero, mul_zero]

/-- C4 witness: the coincident-point statement applied at the concrete
record `coincG` (whose two points are equal by construction). -/
theorem inverse_coincident_zero_witness :
    coincG.p1 = coincG.p2 ∧ proj_pt_inv ellE coincL = coincL ∧
      (geod_inv coincG).1.DIST = 0 :=
  ⟨rfl, (inverse_coincident_zero ellE { lam := 0.3, phi := 0.5 } 0 0 0 coincG rfl).1,
    (inverse_coincident_zero ellE { lam := 0.3, phi := 0.5 } 0 0 0 coincG rfl).2.2.2.1⟩

/-! ## The near-antipodal ladder of the Vincenty inverse solver -/

theorem arctan_ge_035 : (0.35 : ℝ) ≤ arctan 0.42 := by
  have hpi3 : (3 : ℝ) < π := Real.pi_gt_three
  have hmem : -(π / 2) < (0.35 : ℝ) ∧ (0.35 : ℝ) < π / 2 := by
    constructor <;> nlinarith
  have hcos : (0.9 : ℝ) ≤ cos 0.35 := by
    have := Real.one_sub_sq_div_two_le_cos (x := 0.35)
    nlinarith
  have hcos_pos : (0 : ℝ) < cos 0.35 := by linarith
  have hsin : sin 0.35 ≤ 0.35 := (Real.sin_lt (by norm_num)).le
  have htan : tan 0.35 ≤ 0.42 := by
    rw [Real.tan_eq_sin_div_cos, div_le_iff hcos_pos]
    nlinarith
  calc (0.35 : ℝ) = arctan (tan 0.35) := (Real.arctan_tan hmem.1 hmem.2).symm
    _ ≤ arctan 0.42 := Real.arctan_strictMono.monotone htan

theorem atan2_lb {y x : ℝ} (hy : 0.42 ≤ y) (hx : x ≤ 1) : 0.35 ≤ atan2 y x := by
  have hpi3 : (3 : ℝ) < π := Real.pi_gt_three
  rw [atan2]
  split_ifs with h1 h2 h3 h4 h5
  · -- 0 < x ≤ 1
    have hyx : (0.42 : ℝ) ≤ y / x := by
      rw [le_div_iff h1]
      nlinarith
    calc (0.35 : ℝ) ≤ arctan 0.42 := arctan_ge_035
      _ ≤ arctan (y / x) := Real.arctan_strictMono.monotone hyx
  · have := Real.neg_pi_div_two_lt_arctan (y / x)
    linarith
  · linarith
  · linarith
  · linarith
  · linarith

set_option maxHeartbeats 1600000 in
theorem inInvBody_inv (f dlon su1 cu1 ab : ℝ)
    (hpyth : su1 ^ 2 + cu1 ^ 2 = 1) (hs : 0.42 ≤ su1) (hc : 0 ≤ cu1) :
    InvGoProp (inInvBody f su1 cu1 0 1 dlon ab) := by
  have hpy := Real.sin_sq_add_cos_sq ab
  have hcu1 : cu1 ≤ 1 := by nlinarith
  have hsu1 : su1 ≤ 1 := by nlinarith
  have hT1 : (inInvTri su1 cu1 0 1 ab).1 = cu1 * cos ab := by
    show su1 * 0 + cu1 * 1 * cos ab = cu1 * cos ab
    ring
  have hT2 : (inInvTri su1 cu1 0 1 ab).2.1
      = Real.sqrt (sin ab ^ 2 + su1 ^ 2 * cos ab ^ 2) := by
    show hypot (sin ab * 1) (0 * cu1 - su1 * 1 * cos ab) = _
    rw [hypot]
    congr 1
    ring
  have hT3 : (inInvTri su1 cu1 0 1 ab).2.2.1
      = atan2 (inInvTri su1 cu1 0 1 ab).2.1 (inInvTri su1 cu1 0 1 ab).1 := rfl
  have hT4 : (inInvTri su1 cu1 0 1 ab).2.2.2.1
      = cu1 * 1 * sin ab / (inInvTri su1 cu1 0 1 ab).2.1 := rfl
  have hT5 : (inInvTri su1 cu1 0 1 ab).2.2.2.2
      = 1 - (inInvTri su1 cu1 0 1 ab).2.2.2.1
          * (inInvTri su1 cu1 0 1 ab).2.2.2.1 := rfl
  have harg0 : (0 : ℝ) ≤ sin ab ^ 2 + su1 ^ 2 * cos ab ^ 2 := by positivity
  have hB1 : 0.42 ≤ (inInvTri su1 cu1 0 1 ab).2.1 := by
    rw [hT2]
    calc (0.42 : ℝ) ≤ su1 := hs
      _ = Real.sqrt (su1 ^ 2) := (Real.sqrt_sq (by linarith)).symm
      _ ≤ Real.sqrt (sin ab ^ 2 + su1 ^ 2 * cos ab ^ 2) :=
          Real.sqrt_le_sqrt (by nlinarith [sq_nonneg (sin ab)])
  have hB2 : (inInvTri su1 cu1 0 1 ab).2.1 ≤ 1 := by
    rw [hT2]
    calc Real.sqrt (sin ab ^ 2 + su1 ^ 2 * cos ab ^ 2)
        ≤ Real.sqrt 1 := Real.sqrt_le_sqrt (by nlinarith [sq_nonneg (cos ab)])
      _ = 1 := Real.sqrt_one
  have hssig_pos : 0 < (inInvTri su1 cu1 0 1 ab).2.1 := by linarith
  have hssig_sq : (inInvTri su1 cu1 0 1 ab).2.1 ^ 2
      = sin ab ^ 2 + su1 ^ 2 * cos ab ^ 2 := by
    rw [hT2]
    exact Real.sq_sqrt harg0
  have hcsig_abs : |(inInvTri su1 cu1 0 1 ab).1| ≤ 1 := by
    rw [hT1, abs_mul, abs_of_nonneg hc]
    calc cu1 * |cos ab| ≤ 1 * 1 :=
        mul_le_mul hcu1 (Real.abs_cos_le_one ab) (abs_nonneg _) one_pos.le
      _ = 1 := one_mul 1
  have hsa2 : (inInvTri su1 cu1 0 1 ab).2.2.2.1 ^ 2 ≤ 1 := by
    rw [hT4, div_pow, div_le_one (by positivity)]
    rw [hssig_sq]
    nlinarith [sq_nonneg (sin ab), sq_nonneg (cos ab), sq_nonneg cu1]
  have hw0 : 0 ≤ (inInvTri su1 cu1 0 1 ab).2.2.2.2 := by
    rw [hT5]
    nlinarith [hsa2]
  have hw1 : (inInvTri su1 cu1 0 1 ab).2.2.2.2 ≤ 1 := by
    rw [hT5]
    nlinarith [sq_nonneg ((inInvTri su1 cu1 0 1 ab).2.2.2.1)]
  have hq2 : (inInvBody f su1 cu1 0 1 dlon ab).q2 = (inInvTri su1 cu1 0 1 ab).1 := by
    have hsplit : (inInvBody f su1 cu1 0 1 dlon ab).q2
        = (inInvTri su1 cu1 0 1 ab).1 +
          (if (inInvTri su1 cu1 0 1 ab).2.2.2.2 > 5 / 10 ^ 15 then
            su1 * (-2) * 0 / (inInvTri su1 cu1 0 1 ab).2.2.2.2 else 0) := rfl
    rw [hsplit]
    split_ifs <;> simp
  have hq2_abs : |(inInvBody f su1 cu1 0 1 dlon ab).q2| ≤ 1 := by
    rw [hq2]
    exact hcsig_abs
  have hq2m := abs_le.mp hq2_abs
  have hq4 : (inInvBody f su1 cu1 0 1 dlon ab).q4
      = (inInvBody f su1 cu1 0 1 dlon ab).q2 * 2
          * (inInvBody f su1 cu1 0 1 dlon ab).q2 - 1 := rfl
  have hq4_abs : |(inInvBody f su1 cu1 0 1 dlon ab).q4| ≤ 1 := by
    rw [hq4, abs_le]
    constructor <;> nlinarith [hq2m.1, hq2m.2]
  have hq6 : (inInvBody f su1 cu1 0 1 dlon ab).q6
      = (inInvBody f su1 cu1 0 1 dlon ab).q2
          * ((inInvBody f su1 cu1 0 1 dlon ab).q2 * 4
            * (inInvBody f su1 cu1 0 1 dlon ab).q2 - 3) := rfl
  have hq6_abs : |(inInvBody f su1 cu1 0 1 dlon ab).q6| ≤ 1 := by
    rw [hq6, abs_le]
    constructor
    · nlinarith [mul_nonneg (by linarith [hq2m.1] : (0:ℝ) ≤ 1 + (inInvBody f su1 cu1 0 1 dlon ab).q2)
        (sq_nonneg (2 * (inInvBody f su1 cu1 0 1 dlon ab).q2 - 1))]
    · nlinarith [mul_nonneg (by linarith [hq2m.2] : (0:ℝ) ≤ 1 - (inInvBody f su1 cu1 0 1 dlon ab).q2)
        (sq_nonneg (2 * (inInvBody f su1 cu1 0 1 dlon ab).q2 + 1))]
  have hbssig : (inInvBody f su1 cu1 0 1 dlon ab).ssig
      = (inInvTri su1 cu1 0 1 ab).2.1 := rfl
  have hbcsig : (inInvBody f su1 cu1 0 1 dlon ab).csig
      = (inInvTri su1 cu1 0 1 ab).1 := rfl
  have hbw : (inInvBody f su1 cu1 0 1 dlon ab).w
      = (inInvTri su1 cu1 0 1 ab).2.2.2.2 := rfl
  have hbsig : (inInvBody f su1 cu1 0 1 dlon ab).sig
      = (inInvTri su1 cu1 0 1 ab).2.2.1 := rfl
  have hr2 : (inInvBody f su1 cu1 0 1 dlon ab).r2
      = (inInvBody f su1 cu1 0 1 dlon ab).ssig * 2
          * (inInvBody f su1 cu1 0 1 dlon ab).csig := rfl
  have hr2_abs : |(inInvBody f su1 cu1 0 1 dlon ab).r2| ≤ 2 := by
    rw [hr2, abs_mul, abs_mul, hbssig, hbcsig, abs_of_nonneg hssig_pos.le]
    rw [show |(2:ℝ)| = 2 from abs_of_pos two_pos]
    nlinarith [abs_nonneg ((inInvTri su1 cu1 0 1 ab).1)]
  have hr3 : (inInvBody f su1 cu1 0 1 dlon ab).r3
      = (inInvBody f su1 cu1 0 1 dlon ab).ssig *
          (3 - (inInvBody f su1 cu1 0 1 dlon ab).ssig * 4
            * (inInvBody f su1 cu1 0 1 dlon ab).ssig) := rfl
  have hr3_abs : |(inInvBody f su1 cu1 0 1 dlon ab).r3| ≤ 3 := by
    rw [hr3, abs_le, hbssig]
    constructor <;> nlinarith [hB1, hB2, hssig_pos]
  have hsig_lb : 0.35 ≤ (inInvBody f su1 cu1 0 1 dlon ab).sig := by
    rw [hbsig, hT3]
    exact atan2_lb hB1 (abs_le.mp hcsig_abs).2
  refine ⟨?_, ?_, hq2_abs, hq4_abs, hq6_abs, hr2_abs, hr3_abs, ?_, ?_, hsig_lb⟩
  · rw [hbssig]; exact hB1
  · rw [hbssig]; exact hB2
  · rw [hbw]; exact hw0
  · rw [hbw]; exact hw1

theorem inInvGo_inv (f dlon su1 cu1 : ℝ)
    (hpyth : su1 ^ 2 + cu1 ^ 2 = 1) (hs : 0.42 ≤ su1) (hc : 0 ≤ cu1) :
    ∀ (n : ℕ) (ab : ℝ), InvGoProp (inInvGo f su1 cu1 0 1 dlon n ab) := by
  intro n
  induction n with
  | zero =>
    intro ab
    simp only [inInvGo]
    split_ifs <;> exact inInvBody_inv f dlon su1 cu1 ab hpyth hs hc
  | succ m ih =>
    intro ab
    simp only [inInvGo]
    split_ifs
    · exact ih _
    · exact inInvBody_inv f dlon su1 cu1 ab hpyth hs hc

theorem zpow_bounds {z : ℝ} (h0 : 0 ≤ z) (h1 : z ≤ 0.24) :
    z ^ 2 ≤ 0.0576 ∧ z ^ 3 ≤ 0.013824 ∧ z ^ 4 ≤ 0.00331776 := by
  refine ⟨?_, ?_, ?_⟩ <;> nlinarith [sq_nonneg z, mul_nonneg h0 h0,
    mul_nonneg (mul_nonneg h0 h0) h0]

theorem boSeries_ge {z : ℝ} (h0 : 0 ≤ z) (h1 : z ≤ 0.24) :
    1 ≤ z * (z * (z * (0.01953125 - z * 175 / 16384) - 0.046875) + 0.25) + 1 := by
  obtain ⟨h2, h3, h4⟩ := zpow_bounds h0 h1
  have hb : 0 ≤ 0.25 - 0.046875 * z + 0.01953125 * z ^ 2 - 175 / 16384 * z ^ 3 := by
    nlinarith [sq_nonneg z]
  nlinarith [mul_nonneg h0 hb]

theorem b2Series_bound {z : ℝ} (h0 : 0 ≤ z) (h1 : z ≤ 0.24) :
    |z * (z * (z * (z * 35 / 2048 - 0.029296875) + 0.0625) - 0.25)| ≤ 0.06 := by
  obtain ⟨h2, h3, h4⟩ := zpow_bounds h0 h1
  rw [abs_le]
  constructor
  · nlinarith [mul_nonneg (sq_nonneg z) (by linarith : (0:ℝ) ≤ 0.0625 - 0.029296875 * z),
      mul_nonneg (mul_nonneg (mul_nonneg h0 h0) h0) h0]
  · nlinarith [mul_nonneg h0 h0, mul_nonneg (mul_nonneg h0 h0) h0]

theorem b4Series_bound {z : ℝ} (h0 : 0 ≤ z) (h1 : z ≤ 0.24) :
    |z * z * (z * (0.005859375 - z * 35 / 8192) - 0.0078125)| ≤ 0.0005 := by
  obtain ⟨h2, h3, h4⟩ := zpow_bounds h0 h1
  rw [abs_le]
  constructor
  · nlinarith [mul_nonneg (mul_nonneg h0 h0) h0]
  · nlinarith [mul_nonneg (mul_nonneg (mul_nonneg h0 h0) h0) h0]

theorem b6Series_bound {z : ℝ} (h0 : 0 ≤ z) (h1 : z ≤ 0.24) :
    |z * z * z * (z * 5 / 6144 - 6.5104166666666663e-4)| ≤ 0.00002 := by
  obtain ⟨h2, h3, h4⟩ := zpow_bounds h0 h1
  rw [abs_le]
  constructor
  · nlinarith [mul_nonneg (mul_nonneg (mul_nonneg h0 h0) h0) h0]
  · nlinarith [mul_nonneg (mul_nonneg h0 h0) h0,
      mul_nonneg (mul_nonneg (mul_nonneg h0 h0) h0) h0]

theorem abs_mul3_le {a b c A B C : ℝ} (ha : |a| ≤ A) (hb : |b| ≤ B)
    (hc : |c| ≤ C) : |a * b * c| ≤ A * B * C := by
  rw [abs_mul, abs_mul]
  have hA : 0 ≤ A := (abs_nonneg a).trans ha
  have hB : 0 ≤ B := (abs_nonneg b).trans hb
  have h1 : |a| * |b| ≤ A * B := mul_le_mul ha hb (abs_nonneg b) hA
  exact mul_le_mul h1 hc (abs_nonneg c) (mul_nonneg hA hB)

theorem lonReduce_three : lonReduce 3 = 3 := by
  rw [lonReduce, if_pos (by norm_num : (3 : ℝ) ≥ 0),
    if_neg (show ¬(π ≤ 3 ∧ (3 : ℝ) < 2 * π) from
      fun h => absurd h.1 (not_le.mpr Real.pi_gt_three))]

theorem lonFold_abs_three : lonFold |(3 : ℝ)| = 3 := by
  rw [show |(3 : ℝ)| = 3 from abs_of_pos (by norm_num), lonFold,
    if_neg (not_lt.mpr Real.pi_gt_three.le)]

theorem farOnL_lim :
    lonFold |lonReduce (farOnL.pt2.lam - farOnL.pt1.lam)| ≥ π * (1 - ellE.f) := by
  have e3 : farOnL.pt2.lam - farOnL.pt1.lam = 3 := by norm_num [farOnL]
  rw [e3, lonReduce_three, lonFold_abs_three, show ellE.f = (0.1 : ℝ) from rfl]
  nlinarith [Real.pi_lt_d2]

theorem u2_farOnL : inInvU2 ellE farOnL = 0 := by
  show arctan ((1 - ellE.f) * sin farOnL.pt2.phi / cos farOnL.pt2.phi) = 0
  rw [show farOnL.pt2.phi = 0 from rfl, Real.sin_zero]
  norm_num [Real.arctan_zero]

theorem su1_farOnL : 0.42 ≤ sin (inInvU1 ellE farOnL) := by
  have hkey : inInvU1 ellE farOnL = arctan (0.9 * sin 0.5 / cos 0.5) := by
    show arctan ((1 - ellE.f) * sin farOnL.pt1.phi / cos farOnL.pt1.phi) = _
    norm_num [ellE, farOnL]
  have hpi3 : (3 : ℝ) < π := Real.pi_gt_three
  have hs05 : (0.46875 : ℝ) < sin 0.5 := by
    have h := Real.sin_gt_sub_cube (by norm_num : (0 : ℝ) < 0.5) (by norm_num)
    nlinarith
  have hcos_pos : (0 : ℝ) < cos 0.5 :=
    Real.cos_pos_of_mem_Ioo ⟨by nlinarith, by nlinarith⟩
  have hs025 : (0.246 : ℝ) < sin 0.25 := by
    have h := Real.sin_gt_sub_cube (by norm_num : (0 : ℝ) < 0.25) (by norm_num)
    nlinarith
  have hcos_lt : cos 0.5 < 0.88 := by
    have h2 : cos 0.5 = cos 0.25 ^ 2 - sin 0.25 ^ 2 := by
      rw [show (0.5 : ℝ) = 2 * 0.25 by norm_num, Real.cos_two_mul']
    have hpy := Real.sin_sq_add_cos_sq 0.25
    nlinarith
  have ht : (0.47 : ℝ) ≤ 0.9 * sin 0.5 / cos 0.5 := by
    rw [le_div_iff hcos_pos]
    nlinarith [Real.sin_le_one 0.5]
  rw [hkey, Real.sin_arctan]
  set t := 0.9 * sin 0.5 / cos 0.5 with htdef
  have hsq : Real.sqrt (1 + t ^ 2) ^ 2 = 1 + t ^ 2 := Real.sq_sqrt (by positivity)
  have hsqrt_pos : 0 < Real.sqrt (1 + t ^ 2) := Real.sqrt_pos.mpr (by positivity)
  rw [le_div_iff hsqrt_pos]
  nlinarith [hsq, ht, hsqrt_pos.le,
    mul_pos hsqrt_pos (show (0 : ℝ) < t from by linarith)]

theorem farOnL_prop : InvGoProp (inInvIt ellE farOnL) := by
  have hit : inInvIt ellE farOnL
      = inInvGo ellE.f (sin (inInvU1 ellE farOnL)) (cos (inInvU1 ellE farOnL)) 0 1
          (farOnL.pt2.lam - farOnL.pt1.lam) 7 (farOnL.pt2.lam - farOnL.pt1.lam) := by
    unfold inInvIt
    rw [u2_farOnL, Real.sin_zero, Real.cos_zero]
  rw [hit]
  exact inInvGo_inv ellE.f (farOnL.pt2.lam - farOnL.pt1.lam)
    (sin (inInvU1 ellE farOnL)) (cos (inInvU1 ellE farOnL))
    (Real.sin_sq_add_cos_sq _) su1_farOnL
    (Real.cos_arctan_pos _).le 7 _

theorem inInvGeneral_S (E : Ellips) (A : Line) :
    (inInvGeneral E A).S =
      E.a * (1 - E.f) *
        ((inInvZ E A * (inInvZ E A * (inInvZ E A * (0.01953125 - inInvZ E A * 175 / 16384)
              - 0.046875) + 0.25) + 1) * (inInvIt E A).sig
          + inInvZ E A * (inInvZ E A * (inInvZ E A * (inInvZ E A * 35 / 2048 - 0.029296875)
              + 0.0625) - 0.25) * (inInvIt E A).ssig * (inInvIt E A).q2
          + inInvZ E A * inInvZ E A * (inInvZ E A * (0.005859375 - inInvZ E A * 35 / 8192)
              - 0.0078125) * (inInvIt E A).r2 * (inInvIt E A).q4
          + inInvZ E A * inInvZ E A * inInvZ E A * (inInvZ E A * 5 / 6144
              - 6.5104166666666663e-4) * (inInvIt E A).r3 * (inInvIt E A).q6) := rfl

theorem in_inv_farOnL_general : proj_in_inv ellE farOnL = inInvGeneral ellE farOnL := by
  have h1 : ¬ |farOnL.pt2.lam - farOnL.pt1.lam| < 5 / 10 ^ 14 := by
    norm_num [farOnL]
  have h3 : ¬(¬(|farOnL.pt1.phi| > 0.007 ∧ |farOnL.pt2.phi| > 0.007) ∧
      ¬(|farOnL.pt1.phi| < 5 / 10 ^ 14 ∧ |farOnL.pt2.phi| > 0.007) ∧
      ¬(|farOnL.pt2.phi| < 5 / 10 ^ 14 ∧ |farOnL.pt1.phi| > 0.007)) := by
    intro h
    refine h.2.2 ⟨by norm_num [farOnL], ?_⟩
    rw [show farOnL.pt1.phi = 0.5 from rfl, abs_of_pos (show (0 : ℝ) < 0.5 by norm_num)]
    norm_num
  simp only [proj_in_inv]
  rw [if_neg h1, if_pos farOnL_lim, if_neg h3]

/-- C7 counterexample: on the ellipsoid with `f = 1/10`, the input with
`φ₁ = 0.5` (far from the equator), `φ₂ = 0` (exactly on it) and longitude
difference `3 ≥ π(1-f)` satisfies the claim's trigger, yet the solver falls
through to the general iterative branch and returns a strictly positive
distance, not the claimed degenerate zero-distance line. -/
theorem in_inv_far_equator_pos_dist :
    lonFold |lonReduce (farOnL.pt2.lam - farOnL.pt1.lam)| ≥ π * (1 - ellE.f) ∧
      0.007 < |farOnL.pt1.phi| ∧ |farOnL.pt2.phi| < 5 / 10 ^ 14 ∧
      0 < (proj_in_inv ellE farOnL).S := by
  have hphi1 : |farOnL.pt1.phi| = 0.5 := by
    rw [show farOnL.pt1.phi = 0.5 from rfl]
    exact abs_of_pos (by norm_num)
  refine ⟨farOnL_lim, by rw [hphi1]; norm_num, by norm_num [farOnL], ?_⟩
  obtain ⟨hss1, hss2, hq2, hq4, hq6, hr2, hr3, hw0, hw1, hsig⟩ := farOnL_prop
  have hz0 : 0 ≤ inInvZ ellE farOnL := by
    unfold inInvZ
    rw [show ellE.es = (0.19 : ℝ) from rfl]
    apply mul_nonneg (by norm_num) hw0
  have hz1 : inInvZ ellE farOnL ≤ 0.24 := by
    unfold inInvZ
    rw [show ellE.es = (0.19 : ℝ) from rfl]
    nlinarith
  have hbo := boSeries_ge hz0 hz1
  have hb2 := b2Series_bound hz0 hz1
  have hb4 := b4Series_bound hz0 hz1
  have hb6 := b6Series_bound hz0 hz1
  have hssig_abs : |(inInvIt ellE farOnL).ssig| ≤ 1 := by
    rw [abs_of_nonneg (by linarith)]
    exact hss2
  have ht2 := abs_le.mp (abs_mul3_le hb2 hssig_abs hq2)
  have ht3 := abs_le.mp (abs_mul3_le hb4 hr2 hq4)
  have ht4 := abs_le.mp (abs_mul3_le hb6 hr3 hq6)
  have hboSig : (0.35 : ℝ) ≤
      (inInvZ ellE farOnL * (inInvZ ellE farOnL * (inInvZ ellE farOnL
          * (0.01953125 - inInvZ ellE farOnL * 175 / 16384)
        - 0.046875) + 0.25) + 1) * (inInvIt ellE farOnL).sig := by
    calc (0.35 : ℝ) = 1 * 0.35 := by norm_num
      _ ≤ _ := mul_le_mul hbo hsig (by norm_num) (by linarith)
  rw [in_inv_farOnL_general, inInvGeneral_S,
    show ellE.a = (1 : ℝ) from rfl, show ellE.f = (0.1 : ℝ) from rfl]
  nlinarith [hboSig, ht2.1, ht3.1, ht4.1]

/-- C7 amended: at and beyond the equatorial antipodal limit, the solver
returns the degenerate zero-distance line (`S = 0`, both azimuths `0`)
when one latitude magnitude lies in the intermediate band
`(5e-14, 0.007]` ("just off the equator", as the code comment says) and the
other is within `0.007` of the equator; when exactly one latitude is far
from the equator (`> 0.007`) and the other is effectively on it
(`< 5e-14`), it instead falls through to the general iterative branch. -/
theorem in_inv_band_zero (E : Ellips) (L : Line)
    (hmer : ¬ |L.pt2.lam - L.pt1.lam| < 5 / 10 ^ 14)
    (hlim : lonFold |lonReduce (L.pt2.lam - L.pt1.lam)| ≥ π * (1 - E.f))
    (hb1 : 5 / 10 ^ 14 < |L.pt1.phi|) (hb2 : |L.pt1.phi| ≤ 0.007)
    (hb3 : |L.pt2.phi| ≤ 0.007) :
    (proj_in_inv E L).S = 0 ∧ (proj_in_inv E L).az12 = 0 ∧
      (proj_in_inv E L).az21 = 0 := by
  simp only [proj_in_inv]
  rw [if_neg hmer, if_pos hlim,
    if_pos (show ¬(|L.pt1.phi| > 0.007 ∧ |L.pt2.phi| > 0.007) ∧
        ¬(|L.pt1.phi| < 5 / 10 ^ 14 ∧ |L.pt2.phi| > 0.007) ∧
        ¬(|L.pt2.phi| < 5 / 10 ^ 14 ∧ |L.pt1.phi| > 0.007) from
      ⟨fun h => absurd h.1 (not_lt.mpr hb2),
       fun h => absurd h.1 (not_lt.mpr hb1.le),
       fun h => absurd h.2 (not_lt.mpr hb2)⟩),
    if_pos (Or.inl hb1)]
  exact ⟨rfl, rfl, rfl⟩

/-- C7 witness: the band statement applied to the concrete input `bandL`
(`φ₁ = 0.001` in the band, `φ₂ = 0`, longitude difference `3`). -/
theorem in_inv_band_zero_witness :
    (¬ |bandL.pt2.lam - bandL.pt1.lam| < 5 / 10 ^ 14) ∧
      lonFold |lonReduce (bandL.pt2.lam - bandL.pt1.lam)| ≥ π * (1 - ellE.f) ∧
      5 / 10 ^ 14 < |bandL.pt1.phi| ∧ |bandL.pt1.phi| ≤ 0.007 ∧
      |bandL.pt2.phi| ≤ 0.007 ∧ (proj_in_inv ellE bandL).S = 0 := by
  have hmer : ¬ |bandL.pt2.lam - bandL.pt1.lam| < 5 / 10 ^ 14 := by
    norm_num [bandL]
  have hlim : lonFold |lonReduce (bandL.pt2.lam - bandL.pt1.lam)| ≥ π * (1 - ellE.f) := by
    have e3 : bandL.pt2.lam - bandL.pt1.lam = 3 := by norm_num [bandL]
    rw [e3, lonReduce_three, lonFold_abs_three, show ellE.f = (0.1 : ℝ) from rfl]
    nlinarith [Real.pi_lt_d2]
  have hphi1 : |bandL.pt1.phi| = 0.001 := by
    rw [show bandL.pt1.phi = 0.001 from rfl]
    exact abs_of_pos (by norm_num)
  have hb1 : 5 / 10 ^ 14 < |bandL.pt1.phi| := by rw [hphi1]; norm_num
  have hb2 : |bandL.pt1.phi| ≤ 0.007 := by rw [hphi1]; norm_num
  have hb3 : |bandL.pt2.phi| ≤ 0.007 := by norm_num [bandL]
  exact ⟨hmer, hlim, hb1, hb2, hb3,
    (in_inv_band_zero ellE bandL hmer hlim hb1 hb2 hb3).1⟩

end Geodesy
